import Mathlib

/-!
# gin-ToDoList-BE: a shallow embedding of `main.go`

The program is a gin HTTP server over a gorm/SQLite store.  The embedding has
three layers:

* the records `User` and `Todo` and the store operations the handlers call
  (`db.Create`, `db.Find`, `db.First`, `db.Save`, `db.Delete`,
  `db.Where("name LIKE ?", ..)`), as pure functions on a `DB` value;
* gin's response writer and handler chain (`Context.Next`, `Abort`,
  `Context.JSON`, `Context.String`, route registration with
  `combineHandlers`), as pure functions on a `Context` value;
* the handlers and middleware of `main.go`, one definition per closure, and
  the registration sequence of `main`.

Scope of the model: a request path is a list of segments, a numeric segment
being carried as the number it denotes; a request body is carried as the
outcome of decoding it into the handler's destination struct; the clock is
a number that stands still while one request is served; response bodies are
structured values, one per write, not bytes.  SQLite's `LIKE` is the
function `likeMatch`; rowids, and the numerals gorm reads as keys, are
bounded by `maxRowid`; SQLite's evaluation of any other raw SQL condition is
a parameter (`Env`); a failing store is a flag on the `DB` value.  Redirects
for trailing slashes, panics, and durations are outside the model.
-/

namespace TodoServer

/-! ## Records -/

/-- Go: `type User struct { ID uint; Name string; Email string }`. -/
structure User where
  ID : Nat
  Name : String
  Email : String
  deriving DecidableEq, Repr

/-- Go: `type Todo struct { gorm.Model; Title string; Description string }`.
`gorm.Model` contributes `ID`, `CreatedAt`, `UpdatedAt` and the soft-delete
marker `DeletedAt`.  Times are numbers, `0` being Go's zero time. -/
structure Todo where
  ID : Nat
  CreatedAt : Nat
  UpdatedAt : Nat
  DeletedAt : Option Nat
  Title : String
  Description : String
  deriving DecidableEq, Repr

/-- The zero value of `User` (`var user User`). -/
def User.zero : User := ⟨0, "", ""⟩

/-- The zero value of `Todo` (`var todo Todo`). -/
def Todo.zero : Todo := ⟨0, 0, 0, none, "", ""⟩

/-! ## The store -/

/-- How a store can be failing: with `outage` every statement fails when it
is executed (a broken connection); with `readOnly` the statements that
write fail when they are executed while lookups still work (a read-only or
full database file). -/
inductive Fault where
  | outage (err : String)
  | readOnly (err : String)
  deriving DecidableEq, Repr

/-- The SQLite file behind the gorm handle `db`: the two tables in rowid
order, the autoincrement counters, and `fault`, which is `none` for a
working store.  A failing statement changes nothing. -/
structure DB where
  users : List User
  userSeq : Nat
  todos : List Todo
  todoSeq : Nat
  fault : Option Fault
  deriving DecidableEq, Repr

/-- A freshly migrated, empty database. -/
def DB.empty : DB := ⟨[], 0, [], 0, none⟩

/-- The error a statement that only reads gets from the store, if any. -/
def DB.readErr (db : DB) : Option String :=
  match db.fault with
  | some (.outage e) => some e
  | _ => none

/-- The error a statement that writes gets from the store, if any. -/
def DB.writeErr (db : DB) : Option String :=
  match db.fault with
  | some (.outage e) => some e
  | some (.readOnly e) => some e
  | none => none

/-- The part of the environment that is not in `main.go` and is left open:
SQLite's evaluation of a raw SQL condition on a `todos` row (`none` when the
text is not valid SQL). -/
structure Env where
  inlineCond : String → Option (Todo → Bool)

/-- gorm's `ErrRecordNotFound`. -/
def ErrRecordNotFound : String := "record not found"

/-- gorm's `ErrMissingWhereClause`. -/
def ErrMissingWhereClause : String := "WHERE conditions required"

/-- The largest rowid SQLite has, `2^63 - 1`; it is also the largest value
Go's `strconv.Atoi` accepts and the largest `uint` the SQL driver passes
on. -/
def maxRowid : Nat := 9223372036854775807

/-- Largest id present in a list of ids. -/
def maxID (ids : List Nat) : Nat := ids.foldr max 0

/-- Next rowid an `AUTOINCREMENT` table assigns: one more than the larger of
the counter and the largest rowid in the table; none when that has reached
the largest rowid (the insert fails with `SQLITE_FULL`). -/
def nextID (seq : Nat) (ids : List Nat) : Option Nat :=
  if max seq (maxID ids) < maxRowid then some (max seq (maxID ids) + 1) else none

/-- Insert a `todos` row keeping the table in rowid order. -/
def insertTodo (t : Todo) : List Todo → List Todo
  | [] => [t]
  | r :: rs => if t.ID < r.ID then t :: r :: rs else r :: insertTodo t rs

/-- Insert a `users` row keeping the table in rowid order. -/
def insertUser (u : User) : List User → List User
  | [] => [u]
  | r :: rs => if u.ID < r.ID then u :: r :: rs else r :: insertUser u rs

/-- The timestamps gorm fills in on a struct before an INSERT: `CreatedAt`
and `UpdatedAt` become `now` when they hold the zero time. -/
def stampCreate (now : Nat) (t : Todo) : Todo :=
  { t with CreatedAt := if t.CreatedAt = 0 then now else t.CreatedAt,
           UpdatedAt := if t.UpdatedAt = 0 then now else t.UpdatedAt }

/-- Go: `db.Create(&todo)`: returns the store, the struct as gorm leaves it,
and the error.  A zero `ID` is assigned by the store, which fails when the
rowids are used up; a non-zero `ID` is inserted as given and fails when it
is above the largest rowid or clashes with a stored primary key.  gorm has
filled in the timestamps before the insert is executed, also when it
fails. -/
def DB.CreateTodo (db : DB) (now : Nat) (t : Todo) : DB × Todo × Option String :=
  let t1 := stampCreate now t
  match db.writeErr with
  | some e => (db, t1, some e)
  | none =>
    if t1.ID = 0 then
      match nextID db.todoSeq (db.todos.map Todo.ID) with
      | none => (db, t1, some "database or disk is full")
      | some id =>
        let t2 := { t1 with ID := id }
        ({ db with todos := insertTodo t2 db.todos, todoSeq := id }, t2, none)
    else if maxRowid < t1.ID then
      (db, t1, some "uint64 values with high bit set are not supported")
    else if db.todos.any (fun r => r.ID == t1.ID) then
      (db, t1, some "UNIQUE constraint failed: todos.id")
    else
      ({ db with todos := insertTodo t1 db.todos, todoSeq := max db.todoSeq t1.ID }, t1, none)

/-- Go: `db.Create(&user)`. -/
def DB.CreateUser (db : DB) (u : User) : DB × User × Option String :=
  match db.writeErr with
  | some e => (db, u, some e)
  | none =>
    if u.ID = 0 then
      match nextID db.userSeq (db.users.map User.ID) with
      | none => (db, u, some "database or disk is full")
      | some id =>
        let u2 := { u with ID := id }
        ({ db with users := insertUser u2 db.users, userSeq := id }, u2, none)
    else if maxRowid < u.ID then
      (db, u, some "uint64 values with high bit set are not supported")
    else if db.users.any (fun r => r.ID == u.ID) then
      (db, u, some "UNIQUE constraint failed: users.id")
    else
      ({ db with users := insertUser u db.users, userSeq := max db.userSeq u.ID }, u, none)

/-- Go: `db.Find(&user)` on a nil `[]User`: the slice afterwards (`none` is
the nil slice, left as it was when the query fails) and the error. -/
def DB.FindUsers (db : DB) : Option (List User) × Option String :=
  match db.readErr with
  | some e => (none, some e)
  | none => (some db.users, none)

/-- Match at some suffix: `f` holds of the text or of one of its tails. -/
def anySuffix (f : List Char → Bool) : List Char → Bool
  | [] => f []
  | c :: cs => f (c :: cs) || anySuffix f cs

/-- SQLite's `LIKE`, pattern first: `%` matches any run of characters, `_`
matches any one character, every other character matches itself, ASCII
letters regardless of case.  There is no escape character. -/
def likeMatch : List Char → List Char → Bool
  | [] => fun s => s.isEmpty
  | p :: ps => fun s =>
    if p = '%' then anySuffix (likeMatch ps) s
    else
      match s with
      | [] => false
      | d :: ds => (p == '_' || p.toLower == d.toLower) && likeMatch ps ds

/-- Go: `db.Where("name LIKE ?", pat).Find(&user)`. -/
def DB.FindUsersLike (db : DB) (pat : String) : Option (List User) × Option String :=
  match db.readErr with
  | some e => (none, some e)
  | none => (some (db.users.filter (fun u => likeMatch pat.data u.Name.data)), none)

/-- Go: `db.Find(&todos)` on a nil `[]Todo`: the rows that are not
soft-deleted. -/
def DB.FindTodos (db : DB) : Option (List Todo) × Option String :=
  match db.readErr with
  | some e => (none, some e)
  | none => (some (db.todos.filter (fun t => t.DeletedAt.isNone)), none)

/-- A path segment: `num n` is the decimal numeral of `n` without sign or
leading zeros; `str s` is a text that is not an integer numeral (signed and
zero-padded numerals are outside the model). -/
inductive Seg where
  | num (n : Nat)
  | str (s : String)
  deriving DecidableEq, Repr

/-- The text of a segment, as `ctx.Param` returns it. -/
def Seg.text : Seg → String
  | .num n => toString n
  | .str s => s

/-- The row with the least id among the given rows. -/
def leastID : List Todo → Option Todo
  | [] => none
  | t :: ts =>
    match leastID ts with
    | none => some t
    | some m => if m.ID < t.ID then some m else some t

/-- SQL: `SELECT * FROM todos WHERE <p> AND deleted_at IS NULL ORDER BY id
LIMIT 1`. -/
def firstLive (p : Todo → Bool) (rows : List Todo) : Option Todo :=
  leastID (rows.filter (fun t => p t && t.DeletedAt.isNone))

/-- Go: `db.First(&todo, todoID)` with `todoID` a string.  gorm looks the
string up as a primary key only when `strconv.Atoi` accepts it, that is for
a numeral up to `maxRowid`.  Any other string is used as a raw SQL
condition: a larger numeral is a non-zero literal and so holds of every
row, the empty string adds no condition, other text is for SQLite to
evaluate.  All lookups are restricted to rows that are not soft-deleted,
ordered by id, limit 1.  The result is the row, or `result.Error` when no
row qualifies. -/
def DB.FirstTodo (env : Env) (db : DB) (key : Seg) : Except String Todo :=
  match db.readErr with
  | some e => .error e
  | none =>
    match key with
    | .num n =>
      if n ≤ maxRowid then
        match db.todos.find? (fun t => t.ID == n && t.DeletedAt.isNone) with
        | some t => .ok t
        | none => .error ErrRecordNotFound
      else
        match firstLive (fun _ => true) db.todos with
        | some t => .ok t
        | none => .error ErrRecordNotFound
    | .str s =>
      if s = "" then
        match firstLive (fun _ => true) db.todos with
        | some t => .ok t
        | none => .error ErrRecordNotFound
      else
        match env.inlineCond s with
        | none => .error "SQL logic error"
        | some p =>
          match firstLive p db.todos with
          | some t => .ok t
          | none => .error ErrRecordNotFound

/-- SQL: `UPDATE todos SET <all columns> WHERE id = t.ID AND deleted_at IS NULL`. -/
def updateLive (t : Todo) (rows : List Todo) : List Todo :=
  rows.map (fun r => if r.ID = t.ID ∧ r.DeletedAt = none then t else r)

/-- The `ON CONFLICT (id) DO UPDATE` arm of gorm's upsert: every column but
the primary key and `created_at` is overwritten. -/
def upsertOver (t : Todo) (rows : List Todo) : List Todo :=
  rows.map (fun r => if r.ID = t.ID then { t with CreatedAt := r.CreatedAt } else r)

/-- Go: `db.Save(&todo)`: with a zero id it is `Create`; otherwise it updates
all columns of the live row with that id, setting `UpdatedAt` to `now`, and
when no row was touched it falls back to an insert that overwrites on a
primary-key clash.  An id above the largest rowid is refused by the driver.
gorm has set `UpdatedAt` on the struct before the update is executed, also
when it fails. -/
def DB.SaveTodo (db : DB) (now : Nat) (t : Todo) : DB × Todo × Option String :=
  if t.ID = 0 then db.CreateTodo now t
  else
    let t1 := { t with UpdatedAt := now }
    match db.writeErr with
    | some e => (db, t1, some e)
    | none =>
      if maxRowid < t1.ID then
        (db, t1, some "uint64 values with high bit set are not supported")
      else if db.todos.any (fun r => r.ID == t1.ID && r.DeletedAt.isNone) then
        ({ db with todos := updateLive t1 db.todos }, t1, none)
      else
        let t2 := stampCreate now t1
        if db.todos.any (fun r => r.ID == t2.ID) then
          ({ db with todos := upsertOver t2 db.todos }, t2, none)
        else
          ({ db with todos := insertTodo t2 db.todos, todoSeq := max db.todoSeq t2.ID }, t2, none)

/-- Go: `db.Delete(&todo)`: the soft delete of `gorm.Model`.  It sets
`deleted_at` to `now` on the live row with the struct's id; no row is
removed.  A zero id is refused (no WHERE clause). -/
def DB.DeleteTodo (db : DB) (now : Nat) (t : Todo) : DB × Option String :=
  match db.writeErr with
  | some e => (db, some e)
  | none =>
    if t.ID = 0 then (db, some ErrMissingWhereClause)
    else
      ({ db with todos := db.todos.map (fun r =>
          if r.ID = t.ID ∧ r.DeletedAt = none then { r with DeletedAt := some now } else r) }, none)

/-- The primary-key constraint on the `todos` table: ids are pairwise
distinct, none is zero (the store assigns rowids from 1, and gorm reads a
zero id in a struct as "not set") and none is above the largest rowid. -/
def DB.WF (db : DB) : Prop :=
  (db.todos.map Todo.ID).Nodup ∧ (∀ t ∈ db.todos, t.ID ≠ 0) ∧ ∀ t ∈ db.todos, t.ID ≤ maxRowid

/-! ## Requests and the response writer -/

/-- Outcome of `ShouldBindJSON` / `ShouldBind` into a destination struct:
the decoded value, or a failure together with what the decoder left in the
destination (the zero value for a syntax error). -/
inductive Bind (α : Type) where
  | ok (v : α)
  | fail (left : α)
  deriving DecidableEq, Repr

/-- What the destination struct holds after binding. -/
def Bind.dest {α : Type} : Bind α → α
  | .ok v => v
  | .fail l => l

/-- Whether binding returned an error. -/
def Bind.isErr {α : Type} : Bind α → Bool
  | .ok _ => false
  | .fail _ => true

/-- An incoming request.  `userBody` and `todoBody` are the outcomes of
decoding the body into a `User` and into a `Todo`; `now` is the clock. -/
structure Request where
  Method : String
  Path : List Seg
  Header : List (String × String)
  Query : List (String × String)
  userBody : Bind User
  todoBody : Bind Todo
  now : Nat
  deriving DecidableEq, Repr

/-- Go: `ctx.GetHeader(key)`: the header's value, `""` when it is absent.
`Header` holds the keys in canonical form. -/
def Request.GetHeader (r : Request) (key : String) : String :=
  match r.Header.find? (fun kv => kv.1 == key) with
  | some kv => kv.2
  | none => ""

/-- Go: `ctx.DefaultQuery(key, dflt)`: the query value, `dflt` when absent. -/
def Request.DefaultQuery (r : Request) (key dflt : String) : String :=
  match r.Query.find? (fun kv => kv.1 == key) with
  | some kv => kv.2
  | none => dflt

/-- One body write of a handler, as a structured value. -/
inductive Payload where
  | error (msg : String)
  | message (msg : String)
  | text (s : String)
  | user (u : User)
  | users (us : List User)
  | todo (t : Todo)
  | todos (ts : List Todo)
  | product (id name price : String)
  | null
  deriving DecidableEq, Repr

/-- What `ctx.JSON` writes for a `[]User`: JSON `null` for the nil slice. -/
def Payload.ofUsers : Option (List User) → Payload
  | none => .null
  | some us => .users us

/-- What `ctx.JSON` writes for a `[]Todo`: JSON `null` for the nil slice. -/
def Payload.ofTodos : Option (List Todo) → Payload
  | none => .null
  | some ts => .todos ts

/-- Go: `len(s)` of a slice; the nil slice has length zero. -/
def sliceLen {α : Type} : Option (List α) → Nat
  | none => 0
  | some l => l.length

/-- gin's `responseWriter`: `status` is the pending status code, `written`
says whether the header has gone out, `sent` is the status line that went
out with it, `body` the writes so far in order. -/
structure ResponseWriter where
  status : Nat
  written : Bool
  sent : Option Nat
  body : List Payload
  deriving DecidableEq, Repr

/-- gin's `responseWriter.reset`: status 200, nothing written. -/
def ResponseWriter.reset : ResponseWriter := ⟨200, false, none, []⟩

/-- gin's `WriteHeader(code)`: sets the pending status, unless the header
has already gone out, in which case the call is ignored with a warning
(gin before 1.9 still overwrote the pending status then; the status line
already sent, `sent`, is the same in both). -/
def ResponseWriter.WriteHeader (w : ResponseWriter) (code : Nat) : ResponseWriter :=
  if 0 < code ∧ w.status ≠ code then
    if w.written then w else { w with status := code }
  else w

/-- gin's `WriteHeaderNow`: sends the status line once. -/
def ResponseWriter.WriteHeaderNow (w : ResponseWriter) : ResponseWriter :=
  if w.written then w else { w with written := true, sent := some w.status }

/-- gin's `Write(data)`: sends the header if needed, then the data. -/
def ResponseWriter.Write (w : ResponseWriter) (p : Payload) : ResponseWriter :=
  let w1 := w.WriteHeaderNow
  { w1 with body := w1.body ++ [p] }

/-- The handlers and middleware that `main` registers, plus the two that
`gin.Default()` installs. -/
inductive HandlerFunc where
  | ginLogger
  | ginRecovery
  | AuthMiddleware
  | LoggerMiddleware
  | postJson
  | postForm
  | getSearch
  | postUsers
  | getUsers
  | postTodos
  | getTodos
  | getTodoByID
  | putTodoByID
  | deleteTodoByID
  | GetProductList
  | getRoot
  | publicInfo
  | privateData
  | privateCreate
  deriving DecidableEq, Repr

/-- The four handler functions that call `ctx.Next()` themselves. -/
def HandlerFunc.isMiddleware : HandlerFunc → Bool
  | .ginLogger | .ginRecovery | .AuthMiddleware | .LoggerMiddleware => true
  | _ => false

/-- What is recorded while a request is served: a handler being entered,
a statement being sent to the store. -/
inductive Event where
  | enter (h : HandlerFunc)
  | sql (stmt : String)
  deriving DecidableEq, Repr

/-- A line printed by `LoggerMiddleware`: method and status (the duration
is real time and is left out). -/
structure LogLine where
  Method : String
  Status : Nat
  deriving DecidableEq, Repr

/-- gin's `Context`, together with the state the closures of `main` share:
the store `db`, the log output, and the trace of events. -/
structure Context where
  Request : Request
  id : Option Seg
  Writer : ResponseWriter
  handlers : List HandlerFunc
  index : Int
  db : DB
  log : List LogLine
  trace : List Event
  deriving DecidableEq, Repr

/-- gin's `abortIndex` (`math.MaxInt8 >> 1`). -/
def abortIndex : Int := 63

/-- Go: `ctx.Abort()`. -/
def Context.Abort (c : Context) : Context := { c with index := abortIndex }

/-- Go: `ctx.JSON(code, obj)` and `ctx.String(code, s)`: `Render` sets the
status, then writes the body. -/
def Context.Render (c : Context) (code : Nat) (p : Payload) : Context :=
  { c with Writer := (c.Writer.WriteHeader code).Write p }

/-- Go: `ctx.AbortWithStatusJSON(code, obj)`: `Abort()` then `JSON(code, obj)`. -/
def Context.AbortWithStatusJSON (c : Context) (code : Nat) (p : Payload) : Context :=
  c.Abort.Render code p

/-- Go: `ctx.Param("id")`; `""` when the route has no such parameter. -/
def Context.Param (c : Context) : Seg :=
  match c.id with
  | some s => s
  | none => .str ""

/-- Record an event. -/
def Context.note (c : Context) (e : Event) : Context := { c with trace := c.trace ++ [e] }

/-! ## Middleware and handlers of `main.go`

Each closure takes the capability `next` (what `ctx.Next()` does at the
point of the call) and the context.  Every call on `db` is preceded by a
`note` that records the statement in the trace; the notes are bookkeeping
of the model and change nothing else. -/

/-- Go: `AuthMiddleware()`. -/
def AuthMiddleware (next : Context → Context) (c : Context) : Context :=
  let apiKey := c.Request.GetHeader "X-API-Key"
  if apiKey ≠ "gintama" then
    c.AbortWithStatusJSON 401 (.error "Unauthorized")
  else
    next c

/-- Go: `LoggerMiddleware()`. -/
def LoggerMiddleware (next : Context → Context) (c : Context) : Context :=
  let c1 := next c
  { c1 with log := c1.log ++ [⟨c1.Request.Method, c1.Writer.status⟩] }

/-- Go: `router.POST("/json", ..)`. -/
def postJson (c : Context) : Context :=
  let user := c.Request.userBody.dest
  if c.Request.userBody.isErr then
    c.Render 400 (.error "Invalid JSON data")
  else
    c.Render 200 (.user user)

/-- Go: `router.POST("/form", ..)`. -/
def postForm (c : Context) : Context :=
  let user := c.Request.userBody.dest
  if c.Request.userBody.isErr then
    c.Render 400 (.error "Invalid form data")
  else
    c.Render 200 (.user user)

/-- Go: `router.GET("/search", ..)`. -/
def getSearch (c : Context) : Context :=
  let query := c.Request.DefaultQuery "q" ""
  if query = "" then
    c.Render 400 (.error "Search parameter 'q' is required!")
  else
    let c := c.note (.sql "Where(name LIKE ?).Find(&user)")
    match c.db.FindUsersLike ("%" ++ query ++ "%") with
    | (_, some _) =>
      c.Render 500 (.error "No users matching the search query")
    | (user, none) =>
      let c := if sliceLen user = 0 then c.Render 404 (.error "Not found") else c
      c.Render 200 (Payload.ofUsers user)

/-- Go: `router.POST("/users", ..)`. -/
def postUsers (c : Context) : Context :=
  let user := c.Request.userBody.dest
  if c.Request.userBody.isErr then
    c.Render 400 (.error "Invalid JSON data")
  else
    let c := c.note (.sql "Create(&user)")
    match c.db.CreateUser user with
    | (db, user, _) => { c with db := db }.Render 200 (.user user)

/-- Go: `router.GET("/users", ..)`. -/
def getUsers (c : Context) : Context :=
  let c := c.note (.sql "Find(&user)")
  match c.db.FindUsers with
  | (user, _) => c.Render 200 (Payload.ofUsers user)

/-- Go: `router.POST("/todos", ..)`. -/
def postTodos (c : Context) : Context :=
  let todo := c.Request.todoBody.dest
  if c.Request.todoBody.isErr then
    c.Render 400 (.error "Invalid JSON data")
  else
    let c := c.note (.sql "Create(&todo)")
    match c.db.CreateTodo c.Request.now todo with
    | (db, todo, _) => { c with db := db }.Render 200 (.todo todo)

/-- Go: `router.GET("/todos", ..)`. -/
def getTodos (c : Context) : Context :=
  let c := c.note (.sql "Find(&todos)")
  match c.db.FindTodos with
  | (todos, _) => c.Render 200 (Payload.ofTodos todos)

/-- Go: `router.GET("/todos/:id", ..)`. -/
def getTodoByID (env : Env) (c : Context) : Context :=
  let todoID := c.Param
  let c := c.note (.sql "First(&todo, todoID)")
  match c.db.FirstTodo env todoID with
  | .error _ => c.Render 404 (.error "Todo not found")
  | .ok todo => c.Render 200 (.todo todo)

/-- Go: `router.PUT("/todos/:id", ..)`.  After a failed bind the 400 is
written and the closure goes on (there is no `return` in that branch). -/
def putTodoByID (env : Env) (c : Context) : Context :=
  let todoID := c.Param
  let c := c.note (.sql "First(&todo, todoID)")
  match c.db.FirstTodo env todoID with
  | .error _ => c.Render 404 (.error "Todo not found")
  | .ok todo =>
    let updatedTodo := c.Request.todoBody.dest
    let c := if c.Request.todoBody.isErr then
        c.Render 400 (.error "Invalid JSON data")
      else c
    let todo := { todo with Title := updatedTodo.Title, Description := updatedTodo.Description }
    let c := c.note (.sql "Save(&todo)")
    match c.db.SaveTodo c.Request.now todo with
    | (db, todo, _) => { c with db := db }.Render 200 (.todo todo)

/-- Go: `router.DELETE("/todos/:id", ..)`. -/
def deleteTodoByID (env : Env) (c : Context) : Context :=
  let todoID := c.Param
  let c := c.note (.sql "First(&todo, todoID)")
  match c.db.FirstTodo env todoID with
  | .error _ => c.Render 404 (.error "Todo not found")
  | .ok todo =>
    let c := c.note (.sql "Delete(&todo)")
    match c.db.DeleteTodo c.Request.now todo with
    | (db, _) =>
      { c with db := db }.Render 200 (.message ("Todo with ID " ++ todoID.text ++ " deleted"))

/-- Go: `(*ProductController).GetProductList`. -/
def GetProductList (c : Context) : Context :=
  let productID := c.Param
  c.Render 200 (.product productID.text "MSI" "9.000.000")

/-- Go: `router.GET("/", ..)`. -/
def getRoot (c : Context) : Context := c.Render 200 (.text "Hello Gin!")

/-- Go: `public.GET("/info", ..)`. -/
def publicInfo (c : Context) : Context := c.Render 200 (.text "Public information")

/-- Go: `private.GET("/data", ..)`. -/
def privateData (c : Context) : Context :=
  c.Render 200 (.text "Private data accessible after authentication")

/-- Go: `private.POST("/create", ..)`. -/
def privateCreate (c : Context) : Context := c.Render 200 (.text "Create a new resource")

/-- Calling a handler function: the entry is recorded, then its body runs.
`gin.Logger()` and `gin.Recovery()` call `Next` and write nothing to the
response. -/
def HandlerFunc.call (env : Env) (h : HandlerFunc) (next : Context → Context)
    (c0 : Context) : Context :=
  let c := c0.note (.enter h)
  match h with
  | .ginLogger => next c
  | .ginRecovery => next c
  | .AuthMiddleware => TodoServer.AuthMiddleware next c
  | .LoggerMiddleware => TodoServer.LoggerMiddleware next c
  | .postJson => TodoServer.postJson c
  | .postForm => TodoServer.postForm c
  | .getSearch => TodoServer.getSearch c
  | .postUsers => TodoServer.postUsers c
  | .getUsers => TodoServer.getUsers c
  | .postTodos => TodoServer.postTodos c
  | .getTodos => TodoServer.getTodos c
  | .getTodoByID => TodoServer.getTodoByID env c
  | .putTodoByID => TodoServer.putTodoByID env c
  | .deleteTodoByID => TodoServer.deleteTodoByID env c
  | .GetProductList => TodoServer.GetProductList c
  | .getRoot => TodoServer.getRoot c
  | .publicInfo => TodoServer.publicInfo c
  | .privateData => TodoServer.privateData c
  | .privateCreate => TodoServer.privateCreate c

/-! ## gin's handler chain -/

/-- The loop of gin's `Context.Next`,
`for c.index < len(c.handlers) { c.handlers[c.index](c); c.index++ }`,
with `k` bounding the number of handlers still to run.  The handler is
given `Next` itself: `c.index++` followed by this loop. -/
def chainLoop (env : Env) : Nat → Context → Context
  | 0, c => c
  | k + 1, c =>
    if 0 ≤ c.index ∧ c.index < c.handlers.length then
      match c.handlers.get? c.index.toNat with
      | some h =>
        let c1 := h.call env (fun c2 => chainLoop env k { c2 with index := c2.index + 1 }) c
        chainLoop env k { c1 with index := c1.index + 1 }
      | none => c
    else c

/-- gin's `Context.Next`: `c.index++`, then the loop. -/
def Context.Next (env : Env) (k : Nat) (c : Context) : Context :=
  chainLoop env k { c with index := c.index + 1 }

/-! ## Route registration and dispatch -/

/-- A segment of a route pattern: a literal, or a named parameter (`:id`). -/
inductive PSeg where
  | lit (s : String)
  | param
  deriving DecidableEq, Repr

/-- A registered route with the handler chain gin stored for it. -/
structure RouteInfo where
  Method : String
  Path : List PSeg
  handlers : List HandlerFunc
  deriving DecidableEq, Repr

/-- gin's `RouterGroup`: a path prefix and the middleware added so far. -/
structure RouterGroup where
  basePath : List PSeg
  Handlers : List HandlerFunc
  deriving DecidableEq, Repr

/-- Go: `group.Use(mw)`: appends to the group's middleware. -/
def RouterGroup.Use (g : RouterGroup) (mw : HandlerFunc) : RouterGroup :=
  { g with Handlers := g.Handlers ++ [mw] }

/-- Go: `group.Group(rel)`: a child group holding a copy of the middleware the
parent has at this moment. -/
def RouterGroup.Group (g : RouterGroup) (rel : List PSeg) : RouterGroup :=
  { basePath := g.basePath ++ rel, Handlers := g.Handlers }

/-- Go: `group.GET/POST/PUT/DELETE(rel, h)`: the route is stored with
`combineHandlers`, the group's middleware at this moment followed by `h`. -/
def RouterGroup.handle (g : RouterGroup) (method : String) (rel : List PSeg)
    (h : HandlerFunc) (trees : List RouteInfo) : List RouteInfo :=
  trees ++ [⟨method, g.basePath ++ rel, g.Handlers ++ [h]⟩]

/-- Go: `gin.Default()`: an engine with `Logger()` and `Recovery()` in use. -/
def Default : RouterGroup := ⟨[], [.ginLogger, .ginRecovery]⟩

/-- The engine `main` has built when it reaches `router.Run`: the root
group and the registered routes. -/
structure Engine where
  RouterGroup : RouterGroup
  trees : List RouteInfo
  deriving DecidableEq, Repr

/-- Go: `main`, from `gin.Default()` to just before `router.Run(":8080")`,
statement by statement. -/
def main : Engine :=
  let router := Default
  let trees : List RouteInfo := []
  let trees := router.handle "POST" [.lit "json"] .postJson trees
  let trees := router.handle "POST" [.lit "form"] .postForm trees
  let trees := router.handle "GET" [.lit "search"] .getSearch trees
  let trees := router.handle "POST" [.lit "users"] .postUsers trees
  let trees := router.handle "GET" [.lit "users"] .getUsers trees
  let trees := router.handle "POST" [.lit "todos"] .postTodos trees
  let trees := router.handle "GET" [.lit "todos"] .getTodos trees
  let trees := router.handle "GET" [.lit "todos", .param] .getTodoByID trees
  let trees := router.handle "PUT" [.lit "todos", .param] .putTodoByID trees
  let trees := router.handle "DELETE" [.lit "todos", .param] .deleteTodoByID trees
  let trees := router.handle "GET" [.lit "product", .param] .GetProductList trees
  let router := router.Use .LoggerMiddleware
  let trees := router.handle "GET" [] .getRoot trees
  let publicGroup := router.Group [.lit "public"]
  let trees := publicGroup.handle "GET" [.lit "info"] .publicInfo trees
  let privateGroup := router.Group [.lit "private"]
  let privateGroup := privateGroup.Use .AuthMiddleware
  let trees := privateGroup.handle "GET" [.lit "data"] .privateData trees
  let trees := privateGroup.handle "POST" [.lit "create"] .privateCreate trees
  ⟨router, trees⟩

/-- Whether a segment is the empty text (a decimal numeral never is). -/
def Seg.isEmpty : Seg → Bool
  | .num _ => false
  | .str s => s == ""

/-- Match a path against a pattern; on success the value of `:id`, if the
pattern has one.  A parameter matches any non-empty segment. -/
def matchPath : List PSeg → List Seg → Option (Option Seg)
  | [], [] => some none
  | .lit s :: ps, x :: xs => if x.text = s then matchPath ps xs else none
  | .param :: ps, x :: xs =>
    if x.isEmpty then none
    else match matchPath ps xs with
      | some _ => some (some x)
      | none => none
  | _, _ => none

/-- The route a request is dispatched to, with its path parameter: the
first registered route whose method and pattern match (no two patterns of
`main` match the same path, so the order does not matter). -/
def findRoute : List RouteInfo → String → List Seg → Option (RouteInfo × Option Seg)
  | [], _, _ => none
  | r :: rs, m, p =>
    if r.Method = m then
      match matchPath r.Path p with
      | some id => some (r, id)
      | none => findRoute rs m p
    else findRoute rs m p

/-- The context gin hands to the first handler: writer reset, index `-1`. -/
def newContext (req : Request) (id : Option Seg) (hs : List HandlerFunc) (db : DB) : Context :=
  { Request := req, id := id, Writer := ResponseWriter.reset, handlers := hs,
    index := -1, db := db, log := [], trace := [] }

/-- gin's `handleHTTPRequest`: a matched route runs its chain and the header
is sent if no handler wrote; an unmatched request runs the engine's
middleware and gets gin's plain 404. -/
def Engine.handleHTTPRequest (env : Env) (e : Engine) (db : DB) (req : Request) : Context :=
  match findRoute e.trees req.Method req.Path with
  | some (r, id) =>
    let c := newContext req id r.handlers db
    let c := c.Next env r.handlers.length
    { c with Writer := c.Writer.WriteHeaderNow }
  | none =>
    let c := newContext req none e.RouterGroup.Handlers db
    let c := { c with Writer := { c.Writer with status := 404 } }
    let c := c.Next env e.RouterGroup.Handlers.length
    if c.Writer.written then c
    else if c.Writer.status = 404 then { c with Writer := c.Writer.Write (.text "404 page not found") }
    else { c with Writer := c.Writer.WriteHeaderNow }

/-- The server: one request against the store, giving the final context
(response, store, log, trace). -/
def serve (env : Env) (db : DB) (req : Request) : Context :=
  main.handleHTTPRequest env db req

/-- The response a client sees: the status line sent and the body writes. -/
def Context.response (c : Context) : Option Nat × List Payload :=
  (c.Writer.sent, c.Writer.body)

/-- The handler chain registered for a method and pattern, if any. -/
def chainOf (method : String) (path : List PSeg) : Option (List HandlerFunc) :=
  (main.trees.find? (fun r => r.Method == method && r.Path == path)).map RouteInfo.handlers

/-- The context in which the handler at position `i` of the chain starts,
when `tr` has been recorded and nothing has been written. -/
def stage (req : Request) (id : Option Seg) (hs : List HandlerFunc) (db : DB)
    (tr : List Event) (i : Int) : Context :=
  { Request := req, id := id, Writer := ResponseWriter.reset, handlers := hs,
    index := i, db := db, log := [], trace := tr }


/-! ## Sample inputs -/

/-- Whether the first text starts the second, ASCII letters compared
regardless of case. -/
def startsWithFold : List Char → List Char → Bool
  | [], _ => true
  | _ :: _, [] => false
  | a :: as, b :: bs => a.toLower == b.toLower && startsWithFold as bs

/-- Whether the first text occurs inside the second, ASCII letters compared
regardless of case. -/
def containsFold (q s : List Char) : Bool := anySuffix (startsWithFold q) s

/-- An environment for concrete runs: the condition `id` holds of the rows
whose id is not zero, and no other text is taken as valid SQL. -/
def sampleEnv : Env :=
  ⟨fun s => if s = "id" then some (fun t => t.ID != 0) else none⟩

/-- A request with the given method and path, no headers, no query, a body
that binds to neither struct, at time `100`. -/
def mkRequest (method : String) (path : List Seg) : Request :=
  ⟨method, path, [], [], .fail User.zero, .fail Todo.zero, 100⟩

/-- The request `GET /private/data` without an `X-API-Key` header. -/
def reqPrivateNoKey : Request := mkRequest "GET" [.str "private", .str "data"]

/-- The request `GET /private/data` with `X-API-Key: gintama`. -/
def reqPrivateKey : Request :=
  { mkRequest "GET" [.str "private", .str "data"] with Header := [("X-API-Key", "gintama")] }

/-- A store holding one live Todo, id `1`, title `A`, description `B`,
created at time `50`. -/
def dbOneTodo : DB := ⟨[], 0, [⟨1, 50, 50, none, "A", "B"⟩], 1, none⟩


/-- An empty store whose connection is broken. -/
def dbBroken : DB := { DB.empty with fault := some (.outage "disk I/O error") }

/-- The request `POST /users` with a body that binds to the user `Ann`. -/
def reqCreateAnn : Request :=
  { mkRequest "POST" [.str "users"] with userBody := .ok ⟨0, "Ann", "ann@example.com"⟩ }

/-- The request `GET /search` with no query string. -/
def reqSearchNoQ : Request := mkRequest "GET" [.str "search"]

/-- The request `GET /search?q=zz`. -/
def reqSearchZZ : Request := { mkRequest "GET" [.str "search"] with Query := [("q", "zz")] }

/-- A store with two users, `Ann` and `Bob`. -/
def dbTwoUsers : DB :=
  ⟨[⟨1, "Ann", "ann@example.com"⟩, ⟨2, "Bob", "bob@example.com"⟩], 2, [], 0, none⟩

/-- The request `GET /search?q=nn`. -/
def reqSearchNN : Request := { mkRequest "GET" [.str "search"] with Query := [("q", "nn")] }

/-- The request `PUT /todos/1` with a body that fails to bind (a JSON syntax error, the
destination left at its zero value). -/
def reqPutMalformed : Request := mkRequest "PUT" [.str "todos", .num 1]

/-- The request `POST /todos` with a body that binds and carries `ID: 1`. -/
def reqCreateWithID : Request :=
  { mkRequest "POST" [.str "todos"] with todoBody := .ok ⟨1, 0, 0, none, "X", "Y"⟩ }

/-- The request `POST /todos` with a body that binds and carries no id. -/
def reqCreateTodo : Request :=
  { mkRequest "POST" [.str "todos"] with todoBody := .ok ⟨0, 0, 0, none, "A", "B"⟩ }

/-- The request `PUT /todos/1` with a body that binds, carrying title `C`, description
`D`, and also an `ID` of `7` and a `CreatedAt` of `9`. -/
def reqPutCD : Request :=
  { mkRequest "PUT" [.str "todos", .num 1] with todoBody := .ok ⟨7, 9, 0, none, "C", "D"⟩ }

/-- The request `PUT /todos/1` with the body `{"title":"C","description":"D"}`. -/
def reqPutPlain : Request :=
  { mkRequest "PUT" [.str "todos", .num 1] with todoBody := .ok ⟨0, 0, 0, none, "C", "D"⟩ }

/-- The request `GET /todos/1`. -/
def reqGetOne : Request := mkRequest "GET" [.str "todos", .num 1]

/-- The request `DELETE /todos/1`. -/
def reqDeleteOne : Request := mkRequest "DELETE" [.str "todos", .num 1]

/-- The request `DELETE /todos/99999999999999999999`; the number is above
`maxRowid`. -/
def reqDeleteHuge : Request := mkRequest "DELETE" [.str "todos", .num 99999999999999999999]

/-- The request `GET /todos/id`. -/
def reqGetText : Request := mkRequest "GET" [.str "todos", .str "id"]

/-- The request `GET /search?q=_`. -/
def reqSearchUnderscore : Request :=
  { mkRequest "GET" [.str "search"] with Query := [("q", "_")] }

/-- The store holding the live Todo `1`, its file read-only. -/
def dbReadOnly : DB :=
  { dbOneTodo with fault := some (.readOnly "attempt to write a readonly database") }

/-! ## Executing the chain: general lemmas -/

theorem chainLoop_step (env : Env) (k : Nat) (c : Context)
    (h0 : 0 ≤ c.index) (h1 : c.index < c.handlers.length) :
    chainLoop env (k + 1) c =
      match c.handlers.get? c.index.toNat with
      | some h =>
        chainLoop env k
          { h.call env (fun c2 => chainLoop env k { c2 with index := c2.index + 1 }) c with
            index := (h.call env (fun c2 => chainLoop env k { c2 with index := c2.index + 1 }) c).index + 1 }
      | none => c := by
  simp [chainLoop, h0, h1]

theorem chainLoop_stop (env : Env) (k : Nat) (c : Context)
    (h : (c.handlers.length : Int) ≤ c.index) : chainLoop env k c = c := by
  cases k with
  | zero => rfl
  | succ k =>
    simp only [chainLoop]
    rw [if_neg]
    intro hc
    omega

theorem call_leaf_index (env : Env) (h : HandlerFunc) (next : Context → Context) (c : Context)
    (hl : h.isMiddleware = false) : (h.call env next c).index = c.index := by
  cases h <;> simp [HandlerFunc.isMiddleware] at hl <;>
    simp only [HandlerFunc.call, postJson, postForm, getSearch, postUsers, getUsers, postTodos,
      getTodos, getTodoByID, putTodoByID, deleteTodoByID, GetProductList, getRoot, publicInfo,
      privateData, privateCreate] <;>
    (repeat' split) <;> rfl

theorem call_leaf_handlers (env : Env) (h : HandlerFunc) (next : Context → Context) (c : Context)
    (hl : h.isMiddleware = false) : (h.call env next c).handlers = c.handlers := by
  cases h <;> simp [HandlerFunc.isMiddleware] at hl <;>
    simp only [HandlerFunc.call, postJson, postForm, getSearch, postUsers, getUsers, postTodos,
      getTodos, getTodoByID, putTodoByID, deleteTodoByID, GetProductList, getRoot, publicInfo,
      privateData, privateCreate] <;>
    (repeat' split) <;> rfl

theorem call_leaf_next (env : Env) (h : HandlerFunc) (n1 n2 : Context → Context) (c : Context)
    (hl : h.isMiddleware = false) : h.call env n1 c = h.call env n2 c := by
  cases h <;> simp [HandlerFunc.isMiddleware] at hl <;> rfl

theorem call_ginLogger (env : Env) (next : Context → Context) (c : Context) :
    HandlerFunc.call env .ginLogger next c = next (c.note (.enter .ginLogger)) := rfl

theorem call_ginRecovery (env : Env) (next : Context → Context) (c : Context) :
    HandlerFunc.call env .ginRecovery next c = next (c.note (.enter .ginRecovery)) := rfl

theorem call_LoggerMiddleware (env : Env) (next : Context → Context) (c : Context) :
    HandlerFunc.call env .LoggerMiddleware next c
      = LoggerMiddleware next (c.note (.enter .LoggerMiddleware)) := rfl

theorem call_AuthMiddleware (env : Env) (next : Context → Context) (c : Context) :
    HandlerFunc.call env .AuthMiddleware next c
      = AuthMiddleware next (c.note (.enter .AuthMiddleware)) := rfl

/-- A route registered before `router.Use(LoggerMiddleware())`: the chain is
`Logger(), Recovery(), h`, and running it is running `h`. -/
theorem Next_chain3 (env : Env) (req : Request) (id : Option Seg) (db : DB) (h : HandlerFunc)
    (hl : h.isMiddleware = false) :
    Context.Next env 3 (newContext req id [.ginLogger, .ginRecovery, h] db) =
      { h.call env (fun c => c)
          (stage req id [.ginLogger, .ginRecovery, h] db [.enter .ginLogger, .enter .ginRecovery] 2)
        with index := 5 } := by
  simp [Context.Next, newContext, chainLoop_step, chainLoop_stop, call_ginLogger, call_ginRecovery,
    Context.note, call_leaf_index, call_leaf_handlers, hl, stage]
  rw [call_leaf_next env h _ (fun c => c) _ hl]
  simp

/-- The server on a request whose route carries the chain
`Logger(), Recovery(), h`. -/
theorem serve_chain3 (env : Env) (db : DB) (req : Request) (m : String) (p : List PSeg)
    (id : Option Seg) (h : HandlerFunc) (hl : h.isMiddleware = false)
    (hf : findRoute main.trees req.Method req.Path
      = some (⟨m, p, [.ginLogger, .ginRecovery, h]⟩, id)) :
    serve env db req =
      { h.call env (fun c => c)
          (stage req id [.ginLogger, .ginRecovery, h] db [.enter .ginLogger, .enter .ginRecovery] 2)
        with index := 5,
             Writer := (h.call env (fun c => c)
               (stage req id [.ginLogger, .ginRecovery, h] db
                 [.enter .ginLogger, .enter .ginRecovery] 2)).Writer.WriteHeaderNow } := by
  unfold serve Engine.handleHTTPRequest
  rw [hf]
  simp only [List.length_cons, List.length_nil]
  rw [Next_chain3 env req id db h hl]

theorem route_getTodo (req : Request) (n : Nat)
    (hm : req.Method = "GET") (hp : req.Path = [.str "todos", .num n]) :
    findRoute main.trees req.Method req.Path
      = some (⟨"GET", [.lit "todos", .param], [.ginLogger, .ginRecovery, .getTodoByID]⟩,
          some (.num n)) := by
  rw [hm, hp]; rfl

theorem call_leaf_log (env : Env) (h : HandlerFunc) (next : Context → Context) (c : Context)
    (hl : h.isMiddleware = false) : (h.call env next c).log = c.log := by
  cases h <;> simp [HandlerFunc.isMiddleware] at hl <;>
    simp only [HandlerFunc.call, postJson, postForm, getSearch, postUsers, getUsers, postTodos,
      getTodos, getTodoByID, putTodoByID, deleteTodoByID, GetProductList, getRoot, publicInfo,
      privateData, privateCreate] <;>
    (repeat' split) <;> rfl

theorem call_leaf_Request (env : Env) (h : HandlerFunc) (next : Context → Context) (c : Context)
    (hl : h.isMiddleware = false) : (h.call env next c).Request = c.Request := by
  cases h <;> simp [HandlerFunc.isMiddleware] at hl <;>
    simp only [HandlerFunc.call, postJson, postForm, getSearch, postUsers, getUsers, postTodos,
      getTodos, getTodoByID, putTodoByID, deleteTodoByID, GetProductList, getRoot, publicInfo,
      privateData, privateCreate] <;>
    (repeat' split) <;> rfl

/-- A route registered after `router.Use(LoggerMiddleware())` on the root
group: the chain is `Logger(), Recovery(), LoggerMiddleware, h`. -/
theorem Next_chain4 (env : Env) (req : Request) (id : Option Seg) (db : DB) (h : HandlerFunc)
    (hl : h.isMiddleware = false) :
    Context.Next env 4 (newContext req id [.ginLogger, .ginRecovery, .LoggerMiddleware, h] db) =
      { h.call env (fun c => c)
          (stage req id [.ginLogger, .ginRecovery, .LoggerMiddleware, h] db
            [.enter .ginLogger, .enter .ginRecovery, .enter .LoggerMiddleware] 3)
        with index := 7,
             log := [⟨req.Method, (h.call env (fun c => c)
               (stage req id [.ginLogger, .ginRecovery, .LoggerMiddleware, h] db
                 [.enter .ginLogger, .enter .ginRecovery, .enter .LoggerMiddleware] 3)).Writer.status⟩] } := by
  simp [Context.Next, newContext, chainLoop_step, chainLoop_stop, call_ginLogger, call_ginRecovery,
    call_LoggerMiddleware, LoggerMiddleware,
    Context.note, call_leaf_index, call_leaf_handlers, call_leaf_log, call_leaf_Request, hl, stage]
  rw [call_leaf_next env h _ (fun c => c) _ hl]
  simp

/-- A route of the `/private` group, request without the expected key: the
chain stops in `AuthMiddleware`. -/
theorem Next_chain5_unauthorized (env : Env) (req : Request) (id : Option Seg) (db : DB)
    (h : HandlerFunc) (hk : req.GetHeader "X-API-Key" ≠ "gintama") :
    Context.Next env 5
        (newContext req id [.ginLogger, .ginRecovery, .LoggerMiddleware, .AuthMiddleware, h] db) =
      { stage req id [.ginLogger, .ginRecovery, .LoggerMiddleware, .AuthMiddleware, h] db
          [.enter .ginLogger, .enter .ginRecovery, .enter .LoggerMiddleware, .enter .AuthMiddleware] 67
        with Writer := ⟨401, true, some 401, [.error "Unauthorized"]⟩,
             log := [⟨req.Method, 401⟩] } := by
  simp [Context.Next, newContext, chainLoop_step, chainLoop_stop, call_ginLogger, call_ginRecovery,
    call_LoggerMiddleware, LoggerMiddleware, call_AuthMiddleware, AuthMiddleware, hk,
    Context.AbortWithStatusJSON, Context.Abort, Context.Render, abortIndex,
    ResponseWriter.WriteHeader, ResponseWriter.Write, ResponseWriter.WriteHeaderNow,
    ResponseWriter.reset, Context.note, stage]

/-- A route of the `/private` group, request with the expected key: the
chain reaches `h`. -/
theorem Next_chain5_authorized (env : Env) (req : Request) (id : Option Seg) (db : DB)
    (h : HandlerFunc) (hl : h.isMiddleware = false)
    (hk : req.GetHeader "X-API-Key" = "gintama") :
    Context.Next env 5
        (newContext req id [.ginLogger, .ginRecovery, .LoggerMiddleware, .AuthMiddleware, h] db) =
      { h.call env (fun c => c)
          (stage req id [.ginLogger, .ginRecovery, .LoggerMiddleware, .AuthMiddleware, h] db
            [.enter .ginLogger, .enter .ginRecovery, .enter .LoggerMiddleware,
              .enter .AuthMiddleware] 4)
        with index := 9,
             log := [⟨req.Method, (h.call env (fun c => c)
               (stage req id [.ginLogger, .ginRecovery, .LoggerMiddleware, .AuthMiddleware, h] db
                 [.enter .ginLogger, .enter .ginRecovery, .enter .LoggerMiddleware,
                   .enter .AuthMiddleware] 4)).Writer.status⟩] } := by
  simp [Context.Next, newContext, chainLoop_step, chainLoop_stop, call_ginLogger, call_ginRecovery,
    call_LoggerMiddleware, LoggerMiddleware, call_AuthMiddleware, AuthMiddleware, hk,
    Context.note, call_leaf_index, call_leaf_handlers, call_leaf_log, call_leaf_Request, hl, stage]
  rw [call_leaf_next env h _ (fun c => c) _ hl]
  simp

/-! ## Routes of `main` -/

theorem route_privateData (req : Request)
    (hm : req.Method = "GET") (hp : req.Path = [.str "private", .str "data"]) :
    findRoute main.trees req.Method req.Path
      = some (⟨"GET", [.lit "private", .lit "data"],
          [.ginLogger, .ginRecovery, .LoggerMiddleware, .AuthMiddleware, .privateData]⟩, none) := by
  rw [hm, hp]; rfl

theorem route_privateCreate (req : Request)
    (hm : req.Method = "POST") (hp : req.Path = [.str "private", .str "create"]) :
    findRoute main.trees req.Method req.Path
      = some (⟨"POST", [.lit "private", .lit "create"],
          [.ginLogger, .ginRecovery, .LoggerMiddleware, .AuthMiddleware, .privateCreate]⟩, none) := by
  rw [hm, hp]; rfl

theorem route_search (req : Request)
    (hm : req.Method = "GET") (hp : req.Path = [.str "search"]) :
    findRoute main.trees req.Method req.Path
      = some (⟨"GET", [.lit "search"], [.ginLogger, .ginRecovery, .getSearch]⟩, none) := by
  rw [hm, hp]; rfl

theorem route_postUsers (req : Request)
    (hm : req.Method = "POST") (hp : req.Path = [.str "users"]) :
    findRoute main.trees req.Method req.Path
      = some (⟨"POST", [.lit "users"], [.ginLogger, .ginRecovery, .postUsers]⟩, none) := by
  rw [hm, hp]; rfl

theorem route_getUsers (req : Request)
    (hm : req.Method = "GET") (hp : req.Path = [.str "users"]) :
    findRoute main.trees req.Method req.Path
      = some (⟨"GET", [.lit "users"], [.ginLogger, .ginRecovery, .getUsers]⟩, none) := by
  rw [hm, hp]; rfl

theorem route_postTodos (req : Request)
    (hm : req.Method = "POST") (hp : req.Path = [.str "todos"]) :
    findRoute main.trees req.Method req.Path
      = some (⟨"POST", [.lit "todos"], [.ginLogger, .ginRecovery, .postTodos]⟩, none) := by
  rw [hm, hp]; rfl

theorem route_getTodos (req : Request)
    (hm : req.Method = "GET") (hp : req.Path = [.str "todos"]) :
    findRoute main.trees req.Method req.Path
      = some (⟨"GET", [.lit "todos"], [.ginLogger, .ginRecovery, .getTodos]⟩, none) := by
  rw [hm, hp]; rfl

theorem route_putTodo (req : Request) (n : Nat)
    (hm : req.Method = "PUT") (hp : req.Path = [.str "todos", .num n]) :
    findRoute main.trees req.Method req.Path
      = some (⟨"PUT", [.lit "todos", .param], [.ginLogger, .ginRecovery, .putTodoByID]⟩,
          some (.num n)) := by
  rw [hm, hp]; rfl

theorem route_deleteTodo (req : Request) (n : Nat)
    (hm : req.Method = "DELETE") (hp : req.Path = [.str "todos", .num n]) :
    findRoute main.trees req.Method req.Path
      = some (⟨"DELETE", [.lit "todos", .param], [.ginLogger, .ginRecovery, .deleteTodoByID]⟩,
          some (.num n)) := by
  rw [hm, hp]; rfl

/-! ## The store: lookups -/

theorem readErr_none (db : DB) (hdb : db.fault = none) : db.readErr = none := by
  simp [DB.readErr, hdb]

theorem writeErr_none (db : DB) (hdb : db.fault = none) : db.writeErr = none := by
  simp [DB.writeErr, hdb]

theorem FirstTodo_absent (env : Env) (db : DB) (n : Nat) (hn : n ≤ maxRowid)
    (habs : ∀ t ∈ db.todos, t.ID = n → t.DeletedAt ≠ none) :
    ∃ e, db.FirstTodo env (.num n) = .error e := by
  unfold DB.FirstTodo
  cases db.readErr with
  | some e => exact ⟨e, rfl⟩
  | none =>
    have hnone : db.todos.find? (fun t => t.ID == n && t.DeletedAt.isNone) = none := by
      rw [List.find?_eq_none]
      intro t ht
      have := habs t ht
      cases hd : t.DeletedAt <;> simp_all
    simp only [hn, if_true, hnone]
    exact ⟨_, rfl⟩

/-- The server on a `/private` route, request without the expected key. -/
theorem serve_private_unauthorized (env : Env) (db : DB) (req : Request) (m : String)
    (p : List PSeg) (id : Option Seg) (h : HandlerFunc)
    (hf : findRoute main.trees req.Method req.Path
      = some (⟨m, p, [.ginLogger, .ginRecovery, .LoggerMiddleware, .AuthMiddleware, h]⟩, id))
    (hk : req.GetHeader "X-API-Key" ≠ "gintama") :
    serve env db req =
      { stage req id [.ginLogger, .ginRecovery, .LoggerMiddleware, .AuthMiddleware, h] db
          [.enter .ginLogger, .enter .ginRecovery, .enter .LoggerMiddleware, .enter .AuthMiddleware] 67
        with Writer := ⟨401, true, some 401, [.error "Unauthorized"]⟩,
             log := [⟨req.Method, 401⟩] } := by
  unfold serve Engine.handleHTTPRequest
  rw [hf]
  simp only [List.length_cons, List.length_nil]
  rw [Next_chain5_unauthorized env req id db h hk]
  rfl

/-- The server on a `/private` route, request with the expected key. -/
theorem serve_private_authorized (env : Env) (db : DB) (req : Request) (m : String)
    (p : List PSeg) (id : Option Seg) (h : HandlerFunc) (hl : h.isMiddleware = false)
    (hf : findRoute main.trees req.Method req.Path
      = some (⟨m, p, [.ginLogger, .ginRecovery, .LoggerMiddleware, .AuthMiddleware, h]⟩, id))
    (hk : req.GetHeader "X-API-Key" = "gintama") :
    serve env db req =
      { h.call env (fun c => c)
          (stage req id [.ginLogger, .ginRecovery, .LoggerMiddleware, .AuthMiddleware, h] db
            [.enter .ginLogger, .enter .ginRecovery, .enter .LoggerMiddleware,
              .enter .AuthMiddleware] 4)
        with index := 9,
             Writer := (h.call env (fun c => c)
               (stage req id [.ginLogger, .ginRecovery, .LoggerMiddleware, .AuthMiddleware, h] db
                 [.enter .ginLogger, .enter .ginRecovery, .enter .LoggerMiddleware,
                   .enter .AuthMiddleware] 4)).Writer.WriteHeaderNow,
             log := [⟨req.Method, (h.call env (fun c => c)
               (stage req id [.ginLogger, .ginRecovery, .LoggerMiddleware, .AuthMiddleware, h] db
                 [.enter .ginLogger, .enter .ginRecovery, .enter .LoggerMiddleware,
                   .enter .AuthMiddleware] 4)).Writer.status⟩] } := by
  unfold serve Engine.handleHTTPRequest
  rw [hf]
  simp only [List.length_cons, List.length_nil]
  rw [Next_chain5_authorized env req id db h hl hk]

theorem GetHeader_absent (req : Request) (key : String)
    (h : ∀ kv ∈ req.Header, kv.1 ≠ key) : req.GetHeader key = "" := by
  unfold Request.GetHeader
  have : req.Header.find? (fun kv => kv.1 == key) = none := by
    rw [List.find?_eq_none]
    intro kv hkv
    simpa using h kv hkv
  rw [this]

/-- The id-addressed handlers when the id is one gorm looks up as a key and
the lookup finds no live row. -/
theorem serve_todo_absent (env : Env) (db : DB) (req : Request) (n : Nat)
    (hm : req.Method = "GET" ∨ req.Method = "PUT" ∨ req.Method = "DELETE")
    (hp : req.Path = [.str "todos", .num n]) (hn : n ≤ maxRowid)
    (habs : ∀ t ∈ db.todos, t.ID = n → t.DeletedAt ≠ none) :
    (serve env db req).response = (some 404, [.error "Todo not found"]) ∧
    (serve env db req).db = db ∧
    (∀ stmt, Event.sql stmt ∈ (serve env db req).trace → stmt = "First(&todo, todoID)") := by
  obtain ⟨e, he⟩ := FirstTodo_absent env db n hn habs
  rcases hm with hm | hm | hm
  · rw [serve_chain3 env db req _ _ _ .getTodoByID rfl (route_getTodo req n hm hp)]
    simp [HandlerFunc.call, getTodoByID, Context.note, Context.Param, stage, he, Context.Render,
      Context.response, ResponseWriter.WriteHeader, ResponseWriter.Write,
      ResponseWriter.WriteHeaderNow, ResponseWriter.reset]
  · rw [serve_chain3 env db req _ _ _ .putTodoByID rfl (route_putTodo req n hm hp)]
    simp [HandlerFunc.call, putTodoByID, Context.note, Context.Param, stage, he, Context.Render,
      Context.response, ResponseWriter.WriteHeader, ResponseWriter.Write,
      ResponseWriter.WriteHeaderNow, ResponseWriter.reset]
  · rw [serve_chain3 env db req _ _ _ .deleteTodoByID rfl (route_deleteTodo req n hm hp)]
    simp [HandlerFunc.call, deleteTodoByID, Context.note, Context.Param, stage, he, Context.Render,
      Context.response, ResponseWriter.WriteHeader, ResponseWriter.Write,
      ResponseWriter.WriteHeaderNow, ResponseWriter.reset]

theorem DefaultQuery_absent (req : Request) (key dflt : String)
    (h : ∀ kv ∈ req.Query, kv.1 ≠ key) : req.DefaultQuery key dflt = dflt := by
  unfold Request.DefaultQuery
  have : req.Query.find? (fun kv => kv.1 == key) = none := by
    rw [List.find?_eq_none]
    intro kv hkv
    simpa using h kv hkv
  rw [this]

/-- On `POST /users` and `POST /todos`, a body that fails to bind is
answered 400 with `{"error": "Invalid JSON data"}`, nothing is sent to the
store and the store is unchanged. -/
theorem create_bind_failure_leaves_store (env : Env) (db : DB) (req : Request)
    (hm : req.Method = "POST") :
    (req.Path = [.str "users"] → req.userBody.isErr = true →
      (serve env db req).response = (some 400, [.error "Invalid JSON data"]) ∧
      (serve env db req).db = db ∧ ∀ stmt, Event.sql stmt ∉ (serve env db req).trace) ∧
    (req.Path = [.str "todos"] → req.todoBody.isErr = true →
      (serve env db req).response = (some 400, [.error "Invalid JSON data"]) ∧
      (serve env db req).db = db ∧ ∀ stmt, Event.sql stmt ∉ (serve env db req).trace) := by
  constructor
  · intro hp he
    rw [serve_chain3 env db req _ _ _ .postUsers rfl (route_postUsers req hm hp)]
    simp [HandlerFunc.call, postUsers, Context.note, stage, he, Context.Render,
      Context.response, ResponseWriter.WriteHeader, ResponseWriter.Write,
      ResponseWriter.WriteHeaderNow, ResponseWriter.reset]
  · intro hp he
    rw [serve_chain3 env db req _ _ _ .postTodos rfl (route_postTodos req hm hp)]
    simp [HandlerFunc.call, postTodos, Context.note, stage, he, Context.Render,
      Context.response, ResponseWriter.WriteHeader, ResponseWriter.Write,
      ResponseWriter.WriteHeaderNow, ResponseWriter.reset]

/-! ## The store: inserts -/

theorem le_maxID (ids : List Nat) (x : Nat) (hx : x ∈ ids) : x ≤ maxID ids := by
  induction ids with
  | nil => cases hx
  | cons a as ih =>
    simp only [maxID, List.foldr_cons]
    rcases List.mem_cons.mp hx with h | h
    · subst h; exact Nat.le_max_left _ _
    · exact Nat.le_trans (ih h) (Nat.le_max_right _ _)

theorem nextID_spec (seq : Nat) (ids : List Nat) (id : Nat) (h : nextID seq ids = some id) :
    id ∉ ids ∧ id ≠ 0 ∧ id ≤ maxRowid ∧ seq < id := by
  unfold nextID at h
  split at h
  · rename_i hlt
    simp only [Option.some.injEq] at h
    have h2 : maxID ids ≤ max seq (maxID ids) := Nat.le_max_right _ _
    have h3 : seq ≤ max seq (maxID ids) := Nat.le_max_left _ _
    refine ⟨?_, by omega, by omega, by omega⟩
    intro hmem
    have h1 := le_maxID ids _ hmem
    omega
  · cases h

theorem mem_insertTodo (t x : Todo) (rows : List Todo) :
    x ∈ insertTodo t rows ↔ x = t ∨ x ∈ rows := by
  induction rows with
  | nil => simp [insertTodo]
  | cons r rs ih =>
    simp only [insertTodo]
    split
    · simp
    · simp only [List.mem_cons, ih]
      constructor
      · rintro (h | h | h)
        · exact Or.inr (Or.inl h)
        · exact Or.inl h
        · exact Or.inr (Or.inr h)
      · rintro (h | h | h)
        · exact Or.inr (Or.inl h)
        · exact Or.inl h
        · exact Or.inr (Or.inr h)

/-! ## The store: the primary-key constraint is kept -/

theorem insertTodo_perm (t : Todo) (rows : List Todo) : (insertTodo t rows).Perm (t :: rows) := by
  induction rows with
  | nil => exact List.Perm.refl _
  | cons r rs ih =>
    simp only [insertTodo]
    split
    · exact List.Perm.refl _
    · exact (List.Perm.cons r ih).trans (List.Perm.swap t r rs)

theorem WF_insert (db db2 : DB) (t : Todo) (hwf : db.WF) (h0 : t.ID ≠ 0)
    (hmax : t.ID ≤ maxRowid)
    (hfresh : ∀ r ∈ db.todos, r.ID ≠ t.ID) (h2 : db2.todos = insertTodo t db.todos) :
    db2.WF := by
  obtain ⟨hnd, hnz, hle⟩ := hwf
  unfold DB.WF
  rw [h2]
  refine ⟨?_, ?_, ?_⟩
  · have hp : ((insertTodo t db.todos).map Todo.ID).Perm (t.ID :: db.todos.map Todo.ID) :=
      (insertTodo_perm t db.todos).map Todo.ID
    refine hp.nodup_iff.mpr (List.nodup_cons.mpr ⟨?_, hnd⟩)
    intro hmem
    obtain ⟨r, hr, hrid⟩ := List.mem_map.mp hmem
    exact hfresh r hr hrid
  · intro r hr
    rcases (mem_insertTodo t r db.todos).mp hr with h | h
    · rw [h]; exact h0
    · exact hnz r h
  · intro r hr
    rcases (mem_insertTodo t r db.todos).mp hr with h | h
    · rw [h]; exact hmax
    · exact hle r h

theorem WF_map_sameID (db db2 : DB) (f : Todo → Todo)
    (hf : ∀ r ∈ db.todos, (f r).ID = r.ID) (hwf : db.WF) (h2 : db2.todos = db.todos.map f) :
    db2.WF := by
  obtain ⟨hnd, hnz, hle⟩ := hwf
  unfold DB.WF
  rw [h2]
  have hids : (db.todos.map f).map Todo.ID = db.todos.map Todo.ID := by
    rw [List.map_map]
    exact List.map_congr_left (fun r hr => hf r hr)
  refine ⟨?_, ?_, ?_⟩
  · show ((db.todos.map f).map Todo.ID).Nodup
    rw [hids]; exact hnd
  · intro r hr
    obtain ⟨r0, hr0, rfl⟩ := List.mem_map.mp hr
    rw [hf r0 hr0]; exact hnz r0 hr0
  · intro r hr
    obtain ⟨r0, hr0, rfl⟩ := List.mem_map.mp hr
    rw [hf r0 hr0]; exact hle r0 hr0

theorem any_id_false (rows : List Todo) (n : Nat)
    (h : rows.any (fun r => r.ID == n) = false) : ∀ r ∈ rows, r.ID ≠ n := by
  intro r hr
  rw [List.any_eq_false] at h
  simpa using h r hr

theorem CreateTodo_WF (db : DB) (now : Nat) (t : Todo) (hwf : db.WF) :
    (db.CreateTodo now t).1.WF := by
  unfold DB.CreateTodo
  cases hfault : db.writeErr with
  | some e => exact hwf
  | none =>
    simp only
    split
    · split
      · exact hwf
      · rename_i id hid
        obtain ⟨hfresh, hne, hle, _⟩ := nextID_spec _ _ _ hid
        refine WF_insert db _ _ hwf hne hle ?_ rfl
        intro r hr heq
        exact hfresh (by rw [show id = r.ID from heq.symm]; exact List.mem_map_of_mem _ hr)
    · rename_i h0
      split
      · exact hwf
      · rename_i hmax
        split
        · exact hwf
        · rename_i hany
          exact WF_insert db _ _ hwf h0 (Nat.le_of_not_lt hmax)
            (any_id_false _ _ (by simpa using hany)) rfl

theorem SaveTodo_WF (db : DB) (now : Nat) (t : Todo) (hwf : db.WF) :
    (db.SaveTodo now t).1.WF := by
  unfold DB.SaveTodo
  split
  · exact CreateTodo_WF db now t hwf
  · rename_i h0
    cases hfault : db.writeErr with
    | some e => exact hwf
    | none =>
      simp only
      split
      · exact hwf
      · rename_i hmax
        split
        · exact WF_map_sameID db _ _ (by intro r _; split <;> simp_all) hwf rfl
        · split
          · exact WF_map_sameID db _ _ (by intro r _; split <;> simp_all [stampCreate]) hwf rfl
          · rename_i hany
            exact WF_insert db _ _ hwf (by simpa [stampCreate] using h0)
              (by simpa [stampCreate] using Nat.le_of_not_lt hmax)
              (any_id_false _ _ (by simpa using hany)) rfl

theorem DeleteTodo_WF (db : DB) (now : Nat) (t : Todo) (hwf : db.WF) :
    (db.DeleteTodo now t).1.WF := by
  unfold DB.DeleteTodo
  cases hfault : db.writeErr with
  | some e => exact hwf
  | none =>
    simp only
    split
    · exact hwf
    · exact WF_map_sameID db _ _ (by intro r _; split <;> rfl) hwf rfl

theorem CreateUser_todos (db : DB) (u : User) :
    (db.CreateUser u).1.todos = db.todos := by
  unfold DB.CreateUser
  cases db.writeErr with
  | some e => rfl
  | none =>
    simp only
    split
    · split <;> rfl
    · split
      · rfl
      · split <;> rfl

/-! ## Every request keeps the primary-key constraint -/

theorem call_WF (env : Env) (h : HandlerFunc) (next : Context → Context) (c : Context)
    (hnext : ∀ c2 : Context, c2.db.WF → (next c2).db.WF) (hwf : c.db.WF) :
    (h.call env next c).db.WF := by
  cases h
  case ginLogger => exact hnext _ hwf
  case ginRecovery => exact hnext _ hwf
  case AuthMiddleware =>
    simp only [HandlerFunc.call, AuthMiddleware]
    split
    · exact hwf
    · exact hnext _ hwf
  case LoggerMiddleware => exact hnext _ hwf
  case postJson => simp only [HandlerFunc.call, postJson]; split <;> exact hwf
  case postForm => simp only [HandlerFunc.call, postForm]; split <;> exact hwf
  case getSearch =>
    simp only [HandlerFunc.call, getSearch]
    split
    · exact hwf
    · split
      · exact hwf
      · split <;> exact hwf
  case postUsers =>
    simp only [HandlerFunc.call, postUsers]
    split
    · exact hwf
    · have h1 := CreateUser_todos (c.note (.enter .postUsers)).db c.Request.userBody.dest
      unfold DB.WF
      show (List.map Todo.ID (DB.CreateUser _ _).1.todos).Nodup ∧
        (∀ t ∈ (DB.CreateUser _ _).1.todos, t.ID ≠ 0) ∧
        ∀ t ∈ (DB.CreateUser _ _).1.todos, t.ID ≤ maxRowid
      simp only [Context.note] at h1 ⊢
      rw [h1]
      exact hwf
  case getUsers => exact hwf
  case postTodos =>
    simp only [HandlerFunc.call, postTodos]
    split
    · exact hwf
    · exact CreateTodo_WF _ _ _ hwf
  case getTodos => exact hwf
  case getTodoByID => simp only [HandlerFunc.call, getTodoByID]; split <;> exact hwf
  case putTodoByID =>
    simp only [HandlerFunc.call, putTodoByID]
    split
    · exact hwf
    · exact SaveTodo_WF _ _ _ (by split <;> exact hwf)
  case deleteTodoByID =>
    simp only [HandlerFunc.call, deleteTodoByID]
    split
    · exact hwf
    · exact DeleteTodo_WF _ _ _ hwf
  case GetProductList => exact hwf
  case getRoot => exact hwf
  case publicInfo => exact hwf
  case privateData => exact hwf
  case privateCreate => exact hwf

theorem chainLoop_WF (env : Env) (k : Nat) :
    ∀ c : Context, c.db.WF → (chainLoop env k c).db.WF := by
  induction k with
  | zero => intro c hwf; exact hwf
  | succ k ih =>
    intro c hwf
    simp only [chainLoop]
    split
    · split
      · exact ih _ (call_WF env _ _ c (fun c2 h2 => ih _ h2) hwf)
      · exact hwf
    · exact hwf

/-- Serving any request keeps the primary-key constraint on `todos`. -/
theorem serve_WF (env : Env) (db : DB) (req : Request) (hwf : db.WF) :
    (serve env db req).db.WF := by
  unfold serve Engine.handleHTTPRequest
  split
  · exact chainLoop_WF env _ _ hwf
  · have h := chainLoop_WF env main.RouterGroup.Handlers.length
      { newContext req none main.RouterGroup.Handlers db with
        Writer := { (newContext req none main.RouterGroup.Handlers db).Writer with status := 404 },
        index := (newContext req none main.RouterGroup.Handlers db).index + 1 } hwf
    simp only [Context.Next]
    split
    · exact h
    · split <;> exact h

/-- The empty store satisfies the primary-key constraint. -/
theorem empty_WF : DB.empty.WF :=
  ⟨List.nodup_nil, fun _ h => (by cases h), fun _ h => (by cases h)⟩

/-! ## The store: finding and changing a live row -/

theorem find_live (db : DB) (t : Todo) (n : Nat) (hwf : db.WF)
    (ht : t ∈ db.todos) (hid : t.ID = n) (hlive : t.DeletedAt = none) :
    db.todos.find? (fun r => r.ID == n && r.DeletedAt.isNone) = some t := by
  cases hf : db.todos.find? (fun r => r.ID == n && r.DeletedAt.isNone) with
  | none =>
    rw [List.find?_eq_none] at hf
    have := hf t ht
    simp [hid, hlive] at this
  | some r =>
    have hr := List.mem_of_find?_eq_some hf
    have hp := List.find?_some hf
    simp only [Bool.and_eq_true, beq_iff_eq] at hp
    have : r = t := List.inj_on_of_nodup_map hwf.1 hr ht (by rw [hp.1, hid])
    rw [this]

theorem FirstTodo_live (env : Env) (db : DB) (t : Todo) (n : Nat) (hdb : db.fault = none)
    (hwf : db.WF) (ht : t ∈ db.todos) (hid : t.ID = n) (hlive : t.DeletedAt = none) :
    db.FirstTodo env (.num n) = .ok t := by
  have hn : n ≤ maxRowid := by rw [← hid]; exact hwf.2.2 t ht
  simp [DB.FirstTodo, readErr_none db hdb, hn, find_live db t n hwf ht hid hlive]

theorem any_live (db : DB) (t : Todo) (ht : t ∈ db.todos) (hlive : t.DeletedAt = none) :
    db.todos.any (fun r => r.ID == t.ID && r.DeletedAt.isNone) = true := by
  rw [List.any_eq_true]
  exact ⟨t, ht, by simp [hlive]⟩

/-- Under the primary-key constraint, an update addressed to the live row
`t` changes the row with that id and no other. -/
theorem map_live_eq (db : DB) (t : Todo) (f : Todo → Todo) (hwf : db.WF)
    (ht : t ∈ db.todos) (hlive : t.DeletedAt = none) :
    db.todos.map (fun r => if r.ID = t.ID ∧ r.DeletedAt = none then f r else r)
      = db.todos.map (fun r => if r.ID = t.ID then f r else r) := by
  apply List.map_congr_left
  intro r hr
  by_cases h : r.ID = t.ID
  · have : r = t := List.inj_on_of_nodup_map hwf.1 hr ht h
    simp [this, hlive]
  · simp [h]

theorem SaveTodo_live (db : DB) (now : Nat) (t : Todo) (hdb : db.fault = none)
    (h0 : t.ID ≠ 0) (hmax : t.ID ≤ maxRowid)
    (hany : db.todos.any (fun r => r.ID == t.ID && r.DeletedAt.isNone) = true) :
    db.SaveTodo now t
      = ({ db with todos := updateLive { t with UpdatedAt := now } db.todos },
          { t with UpdatedAt := now }, none) := by
  simp [DB.SaveTodo, h0, writeErr_none db hdb, Nat.not_lt.mpr hmax]
  intro h
  obtain ⟨r, hr, hid, hl⟩ := by simpa using hany
  exact absurd hl (by simpa using h r hr hid)

/-- The request `PUT /todos/:id` with a body that binds, addressed to the live row
`t`: the response and the store afterwards. -/
theorem serve_put_live (env : Env) (db : DB) (req : Request) (n : Nat) (t b : Todo)
    (hm : req.Method = "PUT") (hp : req.Path = [.str "todos", .num n])
    (hb : req.todoBody = .ok b) (hdb : db.fault = none) (hwf : db.WF)
    (ht : t ∈ db.todos) (hid : t.ID = n) (hlive : t.DeletedAt = none) :
    (serve env db req).response
      = (some 200, [.todo { t with Title := b.Title, Description := b.Description,
                                    UpdatedAt := req.now }]) ∧
    (serve env db req).db
      = { db with todos := db.todos.map (fun r => if r.ID = n then
            { t with Title := b.Title, Description := b.Description, UpdatedAt := req.now }
          else r) } := by
  have he := FirstTodo_live env db t n hdb hwf ht hid hlive
  have h0 : t.ID ≠ 0 := hwf.2.1 t ht
  have hsave := SaveTodo_live db req.now
    { t with Title := b.Title, Description := b.Description } hdb h0 (hwf.2.2 t ht)
    (any_live db t ht hlive)
  have hmap := map_live_eq db t
    (fun _ => { t with Title := b.Title, Description := b.Description, UpdatedAt := req.now })
    hwf ht hlive
  rw [serve_chain3 env db req _ _ _ .putTodoByID rfl (route_putTodo req n hm hp)]
  constructor
  · simp [HandlerFunc.call, putTodoByID, Context.note, Context.Param, stage, he, hb, Bind.isErr,
      Bind.dest, hsave, Context.Render, Context.response, ResponseWriter.WriteHeader,
      ResponseWriter.Write, ResponseWriter.WriteHeaderNow, ResponseWriter.reset]
  · simp only [HandlerFunc.call, putTodoByID, Context.note, Context.Param, stage, he, hb,
      Bind.isErr, Bind.dest, hsave, Context.Render, updateLive]
    simp only [Bool.false_eq_true, if_false]
    rw [hsave]
    simp only [updateLive]
    rw [hmap, hid]

/-- The request `GET /todos/:id` addressed to the live row `t`. -/
theorem serve_get_live (env : Env) (db : DB) (req : Request) (n : Nat) (t : Todo)
    (hm : req.Method = "GET") (hp : req.Path = [.str "todos", .num n])
    (hdb : db.fault = none) (hwf : db.WF)
    (ht : t ∈ db.todos) (hid : t.ID = n) (hlive : t.DeletedAt = none) :
    (serve env db req).response = (some 200, [.todo t]) ∧ (serve env db req).db = db := by
  have he := FirstTodo_live env db t n hdb hwf ht hid hlive
  rw [serve_chain3 env db req _ _ _ .getTodoByID rfl (route_getTodo req n hm hp)]
  simp [HandlerFunc.call, getTodoByID, Context.note, Context.Param, stage, he,
    Context.Render, Context.response, ResponseWriter.WriteHeader,
    ResponseWriter.Write, ResponseWriter.WriteHeaderNow, ResponseWriter.reset]

/-- The request `DELETE /todos/:id` addressed to the live row `t`. -/
theorem serve_delete_live (env : Env) (db : DB) (req : Request) (n : Nat) (t : Todo)
    (hm : req.Method = "DELETE") (hp : req.Path = [.str "todos", .num n])
    (hdb : db.fault = none) (hwf : db.WF)
    (ht : t ∈ db.todos) (hid : t.ID = n) (hlive : t.DeletedAt = none) :
    (serve env db req).response
      = (some 200, [.message ("Todo with ID " ++ toString n ++ " deleted")]) ∧
    (serve env db req).db
      = { db with todos := db.todos.map (fun r => if r.ID = n then
            { r with DeletedAt := some req.now } else r) } := by
  have he := FirstTodo_live env db t n hdb hwf ht hid hlive
  have h0 : t.ID ≠ 0 := hwf.2.1 t ht
  have hmap := map_live_eq db t (fun r => { r with DeletedAt := some req.now }) hwf ht hlive
  rw [serve_chain3 env db req _ _ _ .deleteTodoByID rfl (route_deleteTodo req n hm hp)]
  constructor
  · simp [HandlerFunc.call, deleteTodoByID, Context.note, Context.Param, stage, he,
      Seg.text, Context.Render, Context.response, ResponseWriter.WriteHeader,
      ResponseWriter.Write, ResponseWriter.WriteHeaderNow, ResponseWriter.reset]
  · simp only [HandlerFunc.call, deleteTodoByID, Context.note, Context.Param, stage, he,
      Context.Render, DB.DeleteTodo, writeErr_none db hdb, h0, if_false]
    rw [hmap, hid]

/-- The request `GET /todos` on a working store lists the live rows. -/
theorem serve_list_todos (env : Env) (db : DB) (req : Request)
    (hm : req.Method = "GET") (hp : req.Path = [.str "todos"]) (hdb : db.fault = none) :
    (serve env db req).response
      = (some 200, [.todos (db.todos.filter (fun t => t.DeletedAt.isNone))]) := by
  rw [serve_chain3 env db req _ _ _ .getTodos rfl (route_getTodos req hm hp)]
  simp [HandlerFunc.call, getTodos, Context.note, stage, DB.FindTodos, readErr_none db hdb,
    Payload.ofTodos, Context.Render, Context.response, ResponseWriter.WriteHeader,
    ResponseWriter.Write, ResponseWriter.WriteHeaderNow, ResponseWriter.reset]

/-! ## Which routes carry `LoggerMiddleware` -/

/-- The server on a request whose route carries the chain
`Logger(), Recovery(), LoggerMiddleware, h`. -/
theorem serve_chain4 (env : Env) (db : DB) (req : Request) (m : String) (p : List PSeg)
    (id : Option Seg) (h : HandlerFunc) (hl : h.isMiddleware = false)
    (hf : findRoute main.trees req.Method req.Path
      = some (⟨m, p, [.ginLogger, .ginRecovery, .LoggerMiddleware, h]⟩, id)) :
    serve env db req =
      { h.call env (fun c => c)
          (stage req id [.ginLogger, .ginRecovery, .LoggerMiddleware, h] db
            [.enter .ginLogger, .enter .ginRecovery, .enter .LoggerMiddleware] 3)
        with index := 7,
             Writer := (h.call env (fun c => c)
               (stage req id [.ginLogger, .ginRecovery, .LoggerMiddleware, h] db
                 [.enter .ginLogger, .enter .ginRecovery, .enter .LoggerMiddleware]
                 3)).Writer.WriteHeaderNow,
             log := [⟨req.Method, (h.call env (fun c => c)
               (stage req id [.ginLogger, .ginRecovery, .LoggerMiddleware, h] db
                 [.enter .ginLogger, .enter .ginRecovery, .enter .LoggerMiddleware]
                 3)).Writer.status⟩] } := by
  unfold serve Engine.handleHTTPRequest
  rw [hf]
  simp only [List.length_cons, List.length_nil]
  rw [Next_chain4 env req id db h hl]

theorem WriteHeaderNow_status (w : ResponseWriter) : w.WriteHeaderNow.status = w.status := by
  unfold ResponseWriter.WriteHeaderNow
  split <;> rfl

theorem findRoute_mem (rs : List RouteInfo) (m : String) (p : List Seg) (r : RouteInfo)
    (id : Option Seg) (h : findRoute rs m p = some (r, id)) : r ∈ rs := by
  induction rs with
  | nil => simp [findRoute] at h
  | cons a as ih =>
    simp only [findRoute] at h
    split at h
    · split at h
      · simp only [Option.some.injEq, Prod.mk.injEq] at h
        rw [← h.1]; exact List.mem_cons_self _ _
      · exact List.mem_cons_of_mem _ (ih h)
    · exact List.mem_cons_of_mem _ (ih h)

theorem call_leaf_trace (env : Env) (h : HandlerFunc) (next : Context → Context) (c : Context)
    (hl : h.isMiddleware = false) (e : Event) (he : e ∈ c.trace) :
    e ∈ (h.call env next c).trace := by
  cases h <;> simp [HandlerFunc.isMiddleware] at hl <;>
    simp only [HandlerFunc.call, postJson, postForm, getSearch, postUsers, getUsers, postTodos,
      getTodos, getTodoByID, putTodoByID, deleteTodoByID, GetProductList, getRoot, publicInfo,
      privateData, privateCreate] <;>
    (repeat' split) <;> simp [Context.note, Context.Render, he]

/-- The three chain shapes `main` registers. -/
theorem route_shapes (r : RouteInfo) (hr : r ∈ main.trees) :
    (∃ h, h.isMiddleware = false ∧ r.handlers = [.ginLogger, .ginRecovery, h]) ∨
    (∃ h, h.isMiddleware = false ∧
      r.handlers = [.ginLogger, .ginRecovery, .LoggerMiddleware, h]) ∨
    (∃ h, h.isMiddleware = false ∧
      r.handlers = [.ginLogger, .ginRecovery, .LoggerMiddleware, .AuthMiddleware, h]) := by
  simp only [main, RouterGroup.handle, RouterGroup.Use, RouterGroup.Group, Default,
    List.nil_append, List.cons_append, List.mem_cons, List.mem_singleton, List.not_mem_nil,
    or_false] at hr
  rcases hr with h | h | h | h | h | h | h | h | h | h | h | h | h | h | h <;> subst h <;>
    first
    | exact Or.inl ⟨_, by rfl, rfl⟩
    | exact Or.inr (Or.inl ⟨_, by rfl, rfl⟩)
    | exact Or.inr (Or.inr ⟨_, by rfl, rfl⟩)

/-- What `LoggerMiddleware` logged for a request, by the shape of its
route's chain. -/
theorem serve_log (env : Env) (db : DB) (req : Request) (r : RouteInfo) (id : Option Seg)
    (hf : findRoute main.trees req.Method req.Path = some (r, id)) :
    (HandlerFunc.LoggerMiddleware ∈ r.handlers →
      (serve env db req).log = [⟨req.Method, (serve env db req).Writer.status⟩]) ∧
    (HandlerFunc.LoggerMiddleware ∉ r.handlers → (serve env db req).log = []) ∧
    (HandlerFunc.AuthMiddleware ∈ r.handlers → req.GetHeader "X-API-Key" ≠ "gintama" →
      (serve env db req).log = [⟨req.Method, 401⟩]) := by
  have hr := findRoute_mem _ _ _ _ _ hf
  obtain ⟨m, p, hs⟩ := r
  rcases route_shapes _ hr with ⟨h, hl, hh⟩ | ⟨h, hl, hh⟩ | ⟨h, hl, hh⟩
  · simp only at hh
    subst hh
    have hne1 : h ≠ .LoggerMiddleware := by intro h1; rw [h1] at hl; cases hl
    have hne2 : h ≠ .AuthMiddleware := by intro h1; rw [h1] at hl; cases hl
    refine ⟨?_, ?_, ?_⟩
    · intro hmem
      simp at hmem
      exact absurd hmem.symm hne1
    · intro _
      rw [serve_chain3 env db req _ _ _ h hl hf]
      show (h.call env (fun c => c) _).log = []
      rw [call_leaf_log env h _ _ hl]
      rfl
    · intro hmem
      simp at hmem
      exact absurd hmem.symm hne2
  · simp only at hh
    subst hh
    have hne2 : h ≠ .AuthMiddleware := by intro h1; rw [h1] at hl; cases hl
    refine ⟨?_, ?_, ?_⟩
    · intro _
      rw [serve_chain4 env db req _ _ _ h hl hf]
      simp [WriteHeaderNow_status]
    · intro hno
      simp at hno
    · intro hmem
      simp at hmem
      exact absurd hmem.symm hne2
  · simp only at hh
    subst hh
    refine ⟨?_, ?_, ?_⟩
    · intro _
      by_cases hk : req.GetHeader "X-API-Key" = "gintama"
      · rw [serve_private_authorized env db req _ _ _ h hl hf hk]
        simp [WriteHeaderNow_status]
      · rw [serve_private_unauthorized env db req _ _ _ h hf hk]
    · intro hno
      simp at hno
    · intro _ hk
      rw [serve_private_unauthorized env db req _ _ _ h hf hk]

/-! ## The loop bound is never what stops the chain -/

/-- For every registered route, running its chain with any larger bound
gives the same final context as running it with the bound `serve` uses, the
length of the chain. -/
theorem chain_bound_irrelevant (env : Env) (db : DB) (req : Request) (r : RouteInfo)
    (id : Option Seg) (hr : r ∈ main.trees) (j : Nat) :
    Context.Next env (r.handlers.length + j) (newContext req id r.handlers db)
      = Context.Next env r.handlers.length (newContext req id r.handlers db) := by
  obtain ⟨m, p, hs⟩ := r
  rcases route_shapes _ hr with ⟨h, hl, hh⟩ | ⟨h, hl, hh⟩ | ⟨h, hl, hh⟩
  · simp only at hh
    subst hh
    simp only [List.length_cons, List.length_nil]
    rw [Nat.add_comm]
    rw [Next_chain3 env req id db h hl]
    simp [Context.Next, newContext, chainLoop_step, chainLoop_stop, call_ginLogger,
      call_ginRecovery, Context.note, call_leaf_index, call_leaf_handlers, hl, stage]
    rw [call_leaf_next env h _ (fun c => c) _ hl]
    simp
  · simp only at hh
    subst hh
    simp only [List.length_cons, List.length_nil]
    rw [Nat.add_comm]
    rw [Next_chain4 env req id db h hl]
    simp [Context.Next, newContext, chainLoop_step, chainLoop_stop, call_ginLogger,
      call_ginRecovery, call_LoggerMiddleware, LoggerMiddleware,
      Context.note, call_leaf_index, call_leaf_handlers, call_leaf_log, call_leaf_Request, hl,
      stage]
    rw [call_leaf_next env h _ (fun c => c) _ hl]
    simp
  · simp only at hh
    subst hh
    simp only [List.length_cons, List.length_nil]
    rw [Nat.add_comm]
    by_cases hk : req.GetHeader "X-API-Key" = "gintama"
    · rw [Next_chain5_authorized env req id db h hl hk]
      simp [Context.Next, newContext, chainLoop_step, chainLoop_stop, call_ginLogger,
        call_ginRecovery, call_LoggerMiddleware, LoggerMiddleware, call_AuthMiddleware,
        AuthMiddleware, hk, Context.note, call_leaf_index, call_leaf_handlers, call_leaf_log,
        call_leaf_Request, hl, stage]
      rw [call_leaf_next env h _ (fun c => c) _ hl]
      simp
    · rw [Next_chain5_unauthorized env req id db h hk]
      simp [Context.Next, newContext, chainLoop_step, chainLoop_stop, call_ginLogger,
        call_ginRecovery, call_LoggerMiddleware, LoggerMiddleware, call_AuthMiddleware,
        AuthMiddleware, hk, Context.AbortWithStatusJSON, Context.Abort, Context.Render,
        abortIndex, ResponseWriter.WriteHeader, ResponseWriter.Write,
        ResponseWriter.WriteHeaderNow, ResponseWriter.reset, Context.note, stage]

/-! ## The store: `LIKE` on a pattern without wildcards -/

theorem likeMatch_percent (s : List Char) : likeMatch ['%'] s = true := by
  have h : ∀ s : List Char, anySuffix (likeMatch []) s = true := by
    intro s
    induction s with
    | nil => rfl
    | cons c cs ih => simp [anySuffix, ih]
  simpa [likeMatch] using h s

theorem likeMatch_startsWith (q : List Char) (hp : '%' ∉ q) (hu : '_' ∉ q) :
    ∀ s : List Char, likeMatch (q ++ ['%']) s = startsWithFold q s := by
  induction q with
  | nil =>
    intro s
    rw [List.nil_append, likeMatch_percent]
    cases s <;> rfl
  | cons c q ih =>
    intro s
    have hc1 : c ≠ '%' := fun h => hp (by rw [h]; exact List.mem_cons_self _ _)
    have hc2 : c ≠ '_' := fun h => hu (by rw [h]; exact List.mem_cons_self _ _)
    have ih2 := ih (fun h => hp (List.mem_cons_of_mem _ h)) (fun h => hu (List.mem_cons_of_mem _ h))
    cases s with
    | nil => simp [likeMatch, startsWithFold, hc1]
    | cons d ds =>
      have hb : (c == '_') = false := by simpa using hc2
      simp [likeMatch, startsWithFold, hc1, hb, ih2]

/-- For a text `q` without `%` and `_`, `LIKE '%q%'` is: the name contains
`q`, ASCII letters compared regardless of case. -/
theorem likeMatch_contains (q : String) (hp : '%' ∉ q.data) (hu : '_' ∉ q.data) (name : String) :
    likeMatch ("%" ++ q ++ "%").data name.data = containsFold q.data name.data := by
  have hd : ("%" ++ q ++ "%").data = '%' :: (q.data ++ ['%']) := by
    simp [String.data_append]
  rw [hd]
  have hf : likeMatch (q.data ++ ['%']) = startsWithFold q.data :=
    funext (likeMatch_startsWith q.data hp hu)
  simp [likeMatch, containsFold, hf]

/-! ## Creating a Todo -/

/-- The request `POST /todos` with a body that binds: the response carries
the struct as `db.Create` leaves it, and the store is what `db.Create`
leaves. -/
theorem serve_post_todos (env : Env) (db : DB) (req : Request) (b : Todo)
    (hm : req.Method = "POST") (hp : req.Path = [.str "todos"]) (hb : req.todoBody = .ok b) :
    (serve env db req).response = (some 200, [.todo (db.CreateTodo req.now b).2.1]) ∧
    (serve env db req).db = (db.CreateTodo req.now b).1 := by
  rw [serve_chain3 env db req _ _ _ .postTodos rfl (route_postTodos req hm hp)]
  constructor
  · simp [HandlerFunc.call, postTodos, Context.note, stage, hb, Bind.isErr, Bind.dest,
      Context.Render, Context.response, ResponseWriter.WriteHeader, ResponseWriter.Write,
      ResponseWriter.WriteHeaderNow, ResponseWriter.reset]
  · simp [HandlerFunc.call, postTodos, Context.note, stage, hb, Bind.isErr, Bind.dest,
      Context.Render]

/-- What `db.Create(&todo)` does on a working store, case by case. -/
theorem CreateTodo_cases (db : DB) (now : Nat) (b : Todo) (hdb : db.fault = none) :
    (b.ID = 0 ∧ ∃ id, nextID db.todoSeq (db.todos.map Todo.ID) = some id ∧
      db.CreateTodo now b
        = ({ db with todos := insertTodo { stampCreate now b with ID := id } db.todos,
                     todoSeq := id }, { stampCreate now b with ID := id }, none)) ∨
    (b.ID = 0 ∧ ∃ e, db.CreateTodo now b = (db, stampCreate now b, some e)) ∨
    (b.ID ≠ 0 ∧ (maxRowid < b.ID ∨ ∃ r ∈ db.todos, r.ID = b.ID) ∧
      ∃ e, db.CreateTodo now b = (db, stampCreate now b, some e)) ∨
    (b.ID ≠ 0 ∧ b.ID ≤ maxRowid ∧ (∀ r ∈ db.todos, r.ID ≠ b.ID) ∧
      db.CreateTodo now b
        = ({ db with todos := insertTodo (stampCreate now b) db.todos,
                     todoSeq := max db.todoSeq b.ID }, stampCreate now b, none)) := by
  by_cases h0 : b.ID = 0
  · cases hn : nextID db.todoSeq (db.todos.map Todo.ID) with
    | some id =>
      refine Or.inl ⟨h0, id, rfl, ?_⟩
      simp [DB.CreateTodo, writeErr_none db hdb, stampCreate, h0, hn]
    | none =>
      refine Or.inr (Or.inl ⟨h0, "database or disk is full", ?_⟩)
      simp [DB.CreateTodo, writeErr_none db hdb, stampCreate, h0, hn]
  · by_cases hmax : maxRowid < b.ID
    · refine Or.inr (Or.inr (Or.inl ⟨h0, Or.inl hmax,
        "uint64 values with high bit set are not supported", ?_⟩))
      simp [DB.CreateTodo, writeErr_none db hdb, stampCreate, h0, hmax]
    · by_cases hany : db.todos.any (fun r => r.ID == b.ID) = true
      · have hex : ∃ r ∈ db.todos, r.ID = b.ID := by
          obtain ⟨r, hr, he⟩ := List.any_eq_true.mp hany
          exact ⟨r, hr, by simpa using he⟩
        refine Or.inr (Or.inr (Or.inl ⟨h0, Or.inr hex,
          "UNIQUE constraint failed: todos.id", ?_⟩))
        obtain ⟨r, hr, he⟩ := hex
        simp only [DB.CreateTodo, writeErr_none db hdb, stampCreate, h0, hmax, hany, if_true,
          if_false]
      · refine Or.inr (Or.inr (Or.inr ⟨h0, Nat.le_of_not_lt hmax, ?_, ?_⟩))
        · exact any_id_false _ _ (by simpa using hany)
        · simp only [DB.CreateTodo, writeErr_none db hdb, stampCreate, h0, hmax, hany, if_false]
          simp

/-! ## A failing store -/

theorem FirstTodo_live_read (env : Env) (db : DB) (t : Todo) (n : Nat)
    (hr : db.readErr = none)
    (hwf : db.WF) (ht : t ∈ db.todos) (hid : t.ID = n) (hlive : t.DeletedAt = none) :
    db.FirstTodo env (.num n) = .ok t := by
  have hn : n ≤ maxRowid := by rw [← hid]; exact hwf.2.2 t ht
  simp [DB.FirstTodo, hr, hn, find_live db t n hwf ht hid hlive]

theorem CreateTodo_writeErr (db : DB) (now : Nat) (t : Todo) (e : String)
    (hw : db.writeErr = some e) : (db.CreateTodo now t).1 = db := by
  simp [DB.CreateTodo, hw]

theorem SaveTodo_writeErr (db : DB) (now : Nat) (t : Todo) (e : String)
    (hw : db.writeErr = some e) : (db.SaveTodo now t).1 = db := by
  unfold DB.SaveTodo
  split
  · exact CreateTodo_writeErr db now t e hw
  · simp [hw]

theorem DeleteTodo_writeErr (db : DB) (now : Nat) (t : Todo) (e : String)
    (hw : db.writeErr = some e) : (db.DeleteTodo now t).1 = db := by
  simp [DB.DeleteTodo, hw]

theorem CreateUser_writeErr (db : DB) (u : User) (e : String)
    (hw : db.writeErr = some e) : (db.CreateUser u).1 = db := by
  simp [DB.CreateUser, hw]

/-- A handler leaves the store as it is when no write can succeed. -/
theorem call_writeErr (env : Env) (h : HandlerFunc) (next : Context → Context) (c : Context)
    (db : DB) (e : String) (hw : db.writeErr = some e)
    (hnext : ∀ c2 : Context, c2.db = db → (next c2).db = db) (hc : c.db = db) :
    (h.call env next c).db = db := by
  subst hc
  cases h
  case ginLogger => exact hnext _ rfl
  case ginRecovery => exact hnext _ rfl
  case AuthMiddleware =>
    simp only [HandlerFunc.call, AuthMiddleware]
    split
    · rfl
    · exact hnext _ rfl
  case LoggerMiddleware => exact hnext _ rfl
  case postJson => simp only [HandlerFunc.call, postJson]; split <;> rfl
  case postForm => simp only [HandlerFunc.call, postForm]; split <;> rfl
  case getSearch =>
    simp only [HandlerFunc.call, getSearch]
    split
    · rfl
    · split
      · rfl
      · split <;> rfl
  case postUsers =>
    simp only [HandlerFunc.call, postUsers]
    split
    · rfl
    · exact CreateUser_writeErr _ _ e hw
  case getUsers => rfl
  case postTodos =>
    simp only [HandlerFunc.call, postTodos]
    split
    · rfl
    · exact CreateTodo_writeErr _ _ _ e hw
  case getTodos => rfl
  case getTodoByID => simp only [HandlerFunc.call, getTodoByID]; split <;> rfl
  case putTodoByID =>
    simp only [HandlerFunc.call, putTodoByID]
    split
    · rfl
    · split <;> exact SaveTodo_writeErr _ _ _ e hw
  case deleteTodoByID =>
    simp only [HandlerFunc.call, deleteTodoByID]
    split
    · rfl
    · exact DeleteTodo_writeErr _ _ _ e hw
  case GetProductList => rfl
  case getRoot => rfl
  case publicInfo => rfl
  case privateData => rfl
  case privateCreate => rfl

theorem chainLoop_writeErr (env : Env) (db : DB) (e : String) (hw : db.writeErr = some e)
    (k : Nat) : ∀ c : Context, c.db = db → (chainLoop env k c).db = db := by
  induction k with
  | zero => intro c hc; exact hc
  | succ k ih =>
    intro c hc
    simp only [chainLoop]
    split
    · split
      · exact ih _ (call_writeErr env _ _ c db e hw (fun c2 h2 => ih _ h2) hc)
      · exact hc
    · exact hc

/-- No request changes a store on which no write can succeed. -/
theorem serve_writeErr (env : Env) (db : DB) (req : Request) (e : String)
    (hw : db.writeErr = some e) : (serve env db req).db = db := by
  unfold serve Engine.handleHTTPRequest
  split
  · exact chainLoop_writeErr env db e hw _ _ rfl
  · have h := chainLoop_writeErr env db e hw main.RouterGroup.Handlers.length
      { newContext req none main.RouterGroup.Handlers db with
        Writer := { (newContext req none main.RouterGroup.Handlers db).Writer with status := 404 },
        index := (newContext req none main.RouterGroup.Handlers db).index + 1 } rfl
    simp only [Context.Next]
    split
    · exact h
    · split <;> exact h

/-! ## The claims -/

/-- C1: on `GET /private/data` and `POST /private/create`, a request whose
`X-API-Key` header is absent or is not `gintama` gets status 401 with the
body `{"error": "Unauthorized"}`, no route handler is entered and the store
is untouched; a request whose header is `gintama` reaches the route's
handler and gets exactly that handler's response, 200 with its plain text. -/
theorem C1_private_routes_are_gated (env : Env) (db : DB) (req : Request)
    (hroute : (req.Method = "GET" ∧ req.Path = [.str "private", .str "data"]) ∨
      (req.Method = "POST" ∧ req.Path = [.str "private", .str "create"])) :
    (req.GetHeader "X-API-Key" ≠ "gintama" →
      (serve env db req).response = (some 401, [.error "Unauthorized"]) ∧
      (∀ h : HandlerFunc, h.isMiddleware = false → Event.enter h ∉ (serve env db req).trace) ∧
      (serve env db req).db = db) ∧
    ((∀ kv ∈ req.Header, kv.1 ≠ "X-API-Key") →
      (serve env db req).response = (some 401, [.error "Unauthorized"])) ∧
    (req.GetHeader "X-API-Key" = "gintama" →
      (req.Method = "GET" →
        Event.enter .privateData ∈ (serve env db req).trace ∧
        (serve env db req).response
          = (some 200, [.text "Private data accessible after authentication"]) ∧
        (serve env db req).Writer = (privateData (newContext req none [] db)).Writer) ∧
      (req.Method = "POST" →
        Event.enter .privateCreate ∈ (serve env db req).trace ∧
        (serve env db req).response = (some 200, [.text "Create a new resource"]) ∧
        (serve env db req).Writer = (privateCreate (newContext req none [] db)).Writer)) := by
  have hdeny : req.GetHeader "X-API-Key" ≠ "gintama" →
      (serve env db req).response = (some 401, [.error "Unauthorized"]) ∧
      (∀ h : HandlerFunc, h.isMiddleware = false → Event.enter h ∉ (serve env db req).trace) ∧
      (serve env db req).db = db := by
    intro hk
    have hs : ∃ h, serve env db req =
        { stage req none [.ginLogger, .ginRecovery, .LoggerMiddleware, .AuthMiddleware, h] db
            [.enter .ginLogger, .enter .ginRecovery, .enter .LoggerMiddleware,
              .enter .AuthMiddleware] 67
          with Writer := ⟨401, true, some 401, [.error "Unauthorized"]⟩,
               log := [⟨req.Method, 401⟩] } := by
      rcases hroute with ⟨hm, hp⟩ | ⟨hm, hp⟩
      · exact ⟨_, serve_private_unauthorized env db req _ _ _ _ (route_privateData req hm hp) hk⟩
      · exact ⟨_, serve_private_unauthorized env db req _ _ _ _ (route_privateCreate req hm hp) hk⟩
    obtain ⟨h, hs⟩ := hs
    rw [hs]
    refine ⟨rfl, ?_, rfl⟩
    intro h' hl
    cases h' <;> simp [HandlerFunc.isMiddleware] at hl <;> simp [stage]
  refine ⟨hdeny, ?_, ?_⟩
  · intro habs
    refine (hdeny ?_).1
    rw [GetHeader_absent req _ habs]
    decide
  · intro hk
    constructor
    · intro hm
      rcases hroute with ⟨_, hp⟩ | ⟨hm2, _⟩
      · rw [serve_private_authorized env db req _ _ _ .privateData rfl (route_privateData req hm hp) hk]
        simp [HandlerFunc.call, privateData, Context.note, Context.Render, stage, Context.response,
          ResponseWriter.WriteHeader, ResponseWriter.Write, ResponseWriter.WriteHeaderNow,
          ResponseWriter.reset, newContext]
      · rw [hm] at hm2; exact absurd hm2 (by decide)
    · intro hm
      rcases hroute with ⟨hm2, _⟩ | ⟨_, hp⟩
      · rw [hm] at hm2; exact absurd hm2 (by decide)
      · rw [serve_private_authorized env db req _ _ _ .privateCreate rfl (route_privateCreate req hm hp) hk]
        simp [HandlerFunc.call, privateCreate, Context.note, Context.Render, stage, Context.response,
          ResponseWriter.WriteHeader, ResponseWriter.Write, ResponseWriter.WriteHeaderNow,
          ResponseWriter.reset, newContext]

/-- C1 at concrete inputs: `GET /private/data` without the header is
answered 401 and with `X-API-Key: gintama` is answered 200. -/
theorem C1_private_routes_are_gated_witness :
    ((reqPrivateNoKey.Method = "GET" ∧ reqPrivateNoKey.Path = [.str "private", .str "data"]) ∨
      (reqPrivateNoKey.Method = "POST" ∧ reqPrivateNoKey.Path = [.str "private", .str "create"])) ∧
    reqPrivateNoKey.GetHeader "X-API-Key" ≠ "gintama" ∧
    (serve sampleEnv DB.empty reqPrivateNoKey).response = (some 401, [.error "Unauthorized"]) ∧
    reqPrivateKey.GetHeader "X-API-Key" = "gintama" ∧
    (serve sampleEnv DB.empty reqPrivateKey).response
      = (some 200, [.text "Private data accessible after authentication"]) :=
  ⟨Or.inl ⟨rfl, rfl⟩, by decide,
    ((C1_private_routes_are_gated sampleEnv DB.empty reqPrivateNoKey (Or.inl ⟨rfl, rfl⟩)).1
      (by decide)).1,
    by decide,
    (((C1_private_routes_are_gated sampleEnv DB.empty reqPrivateKey (Or.inl ⟨rfl, rfl⟩)).2.2
      (by decide)).1 rfl).2.1⟩

/-- C2, the code at the failing input: `PUT /todos/1` with a body that fails
to bind, on a store whose Todo `1` has title `A` and description `B`.  The
400 is written, and then the handler goes on: the stored title and
description are overwritten with the empty strings left in the destination
struct, and the record is written to the body after the error. -/
theorem C2_put_bind_failure_still_saves :
    reqPutMalformed.todoBody.isErr = true ∧
    (serve sampleEnv dbOneTodo reqPutMalformed).response
      = (some 400, [.error "Invalid JSON data", .todo ⟨1, 50, 100, none, "", ""⟩]) ∧
    (serve sampleEnv dbOneTodo reqPutMalformed).db.todos = [⟨1, 50, 100, none, "", ""⟩] ∧
    (serve sampleEnv dbOneTodo reqPutMalformed).db ≠ dbOneTodo ∧
    Event.sql "Save(&todo)" ∈ (serve sampleEnv dbOneTodo reqPutMalformed).trace := by
  decide

/-- C3, the code at failing inputs, on the store whose only Todo has id `1`.
No live Todo has the id `99999999999999999999`, yet
`DELETE /todos/99999999999999999999` is answered 200 with the message
`Todo with ID 99999999999999999999 deleted` and Todo `1` is soft-deleted:
the numeral is more than `strconv.Atoi` accepts, so `db.First` uses it as a
raw condition, which holds of every row.  In the same way `GET /todos/id`
is answered 200 with Todo `1`. -/
theorem C3_unparsed_id_reaches_another_todo :
    (∀ t ∈ dbOneTodo.todos, t.ID = 99999999999999999999 → t.DeletedAt ≠ none) ∧
    (serve sampleEnv dbOneTodo reqDeleteHuge).response
      = (some 200, [.message "Todo with ID 99999999999999999999 deleted"]) ∧
    (serve sampleEnv dbOneTodo reqDeleteHuge).db.todos = [⟨1, 50, 50, some 100, "A", "B"⟩] ∧
    (serve sampleEnv dbOneTodo reqDeleteHuge).db ≠ dbOneTodo ∧
    (serve sampleEnv dbOneTodo reqGetText).response
      = (some 200, [.todo ⟨1, 50, 50, none, "A", "B"⟩]) := by
  decide

/-- C4 as stated fails in its last part: after `PUT /todos/1` with title
`C` and description `D` at time `100`, on the store whose Todo `1` was last
updated at time `50`, `GET /todos/1` returns the record with the new title
and description and also with a new update time, `100`; it is not the old
record with only the title and description changed. -/
theorem C4_put_also_moves_update_time :
    (serve sampleEnv (serve sampleEnv dbOneTodo reqPutPlain).db reqGetOne).response
      = (some 200, [.todo ⟨1, 50, 100, none, "C", "D"⟩]) ∧
    (serve sampleEnv (serve sampleEnv dbOneTodo reqPutPlain).db reqGetOne).response
      ≠ (some 200, [.todo { (⟨1, 50, 50, none, "A", "B"⟩ : Todo) with
          Title := "C", Description := "D" }]) ∧
    (⟨1, 50, 50, none, "A", "B"⟩ : Todo) ∈ dbOneTodo.todos := by
  decide

/-- C4, amended: `PUT /todos/X` with a body that binds, on a working store
in which `t` is the live Todo with id `X`.  The response is 200 with the
record `t` carrying the body's title and description and the request's time
as update time; that record is what the store now holds under id `X`, with
the id, creation time and deletion marker of `t`, whatever `ID` or
`CreatedAt` the body carries; every Todo with another id is as it was and
the users are untouched; and a following `GET /todos/X` returns that same
record. -/
theorem C4_put_sets_title_and_description (env : Env) (db : DB) (req : Request) (n : Nat)
    (t b : Todo)
    (hm : req.Method = "PUT") (hp : req.Path = [.str "todos", .num n])
    (hb : req.todoBody = .ok b) (hdb : db.fault = none) (hwf : db.WF)
    (ht : t ∈ db.todos) (hid : t.ID = n) (hlive : t.DeletedAt = none) :
    (serve env db req).response
      = (some 200, [.todo ⟨t.ID, t.CreatedAt, req.now, t.DeletedAt, b.Title, b.Description⟩]) ∧
    (serve env db req).db.todos
      = db.todos.map (fun r => if r.ID = n then
          ⟨t.ID, t.CreatedAt, req.now, t.DeletedAt, b.Title, b.Description⟩ else r) ∧
    (⟨t.ID, t.CreatedAt, req.now, t.DeletedAt, b.Title, b.Description⟩ : Todo)
      ∈ (serve env db req).db.todos ∧
    (∀ r ∈ (serve env db req).db.todos, r.ID = n →
      r = ⟨t.ID, t.CreatedAt, req.now, t.DeletedAt, b.Title, b.Description⟩) ∧
    (∀ r ∈ db.todos, r.ID ≠ n → r ∈ (serve env db req).db.todos) ∧
    (serve env db req).db.users = db.users ∧
    (∀ req2 : Request, req2.Method = "GET" → req2.Path = [.str "todos", .num n] →
      (serve env (serve env db req).db req2).response
        = (some 200, [.todo ⟨t.ID, t.CreatedAt, req.now, t.DeletedAt, b.Title, b.Description⟩])) := by
  obtain ⟨hresp, hstore⟩ := serve_put_live env db req n t b hm hp hb hdb hwf ht hid hlive
  have hwf2 := serve_WF env db req hwf
  have htodos : (serve env db req).db.todos
      = db.todos.map (fun r => if r.ID = n then
          ⟨t.ID, t.CreatedAt, req.now, t.DeletedAt, b.Title, b.Description⟩ else r) := by
    rw [hstore]
  have hmem : (⟨t.ID, t.CreatedAt, req.now, t.DeletedAt, b.Title, b.Description⟩ : Todo)
      ∈ (serve env db req).db.todos := by
    rw [htodos]
    exact List.mem_map.mpr ⟨t, ht, by simp [hid]⟩
  refine ⟨hresp, htodos, hmem, ?_, ?_, ?_, ?_⟩
  · intro r hr hrn
    exact List.inj_on_of_nodup_map hwf2.1 hr hmem (by rw [hrn]; exact hid.symm)
  · intro r hr hne
    rw [htodos]
    exact List.mem_map.mpr ⟨r, hr, by simp [hne]⟩
  · rw [hstore]
  · intro req2 hm2 hp2
    exact (serve_get_live env _ req2 n _ hm2 hp2 (by rw [hstore]; exact hdb) hwf2 hmem hid
      hlive).1

/-- C4 at a concrete input: `PUT /todos/1` with title `C`, description `D`
and a body that also carries `ID: 7` and `CreatedAt: 9`, on the store
holding Todo `1` created at time `50`. -/
theorem C4_put_sets_title_and_description_witness :
    reqPutCD.Method = "PUT" ∧ reqPutCD.Path = [.str "todos", .num 1] ∧
    reqPutCD.todoBody = .ok ⟨7, 9, 0, none, "C", "D"⟩ ∧ dbOneTodo.fault = none ∧
    dbOneTodo.WF ∧ (⟨1, 50, 50, none, "A", "B"⟩ : Todo) ∈ dbOneTodo.todos ∧
    (serve sampleEnv dbOneTodo reqPutCD).response
      = (some 200, [.todo ⟨1, 50, 100, none, "C", "D"⟩]) ∧
    (serve sampleEnv dbOneTodo reqPutCD).db.todos = [⟨1, 50, 100, none, "C", "D"⟩] :=
  ⟨rfl, rfl, rfl, rfl, ⟨by decide, by decide, by decide⟩, by decide,
    (C4_put_sets_title_and_description sampleEnv dbOneTodo reqPutCD 1 ⟨1, 50, 50, none, "A", "B"⟩
      ⟨7, 9, 0, none, "C", "D"⟩ rfl rfl rfl rfl ⟨by decide, by decide, by decide⟩ (by decide) rfl rfl).1,
    (C4_put_sets_title_and_description sampleEnv dbOneTodo reqPutCD 1 ⟨1, 50, 50, none, "A", "B"⟩
      ⟨7, 9, 0, none, "C", "D"⟩ rfl rfl rfl rfl ⟨by decide, by decide, by decide⟩ (by decide) rfl rfl).2.1⟩

/-- C5: `DELETE /todos/X` on a working store in which `t` is the live Todo
with id `X`.  The response is 200 with the message `Todo with ID X deleted`;
the row stays in the table, marked deleted at the request's time, and no
row is removed; afterwards `GET /todos/X` is answered 404, `GET /todos`
lists no Todo with id `X`, and a second `DELETE /todos/X` is answered 404
and leaves the store as it is.  Scenario: on the empty store `POST /todos`
with title `A`, description `B` yields id `1`; `GET /todos/1` returns that
record; `PUT` sets title `C`; `DELETE /todos/1` is answered 200; then
`GET /todos/1` is answered 404. -/
theorem C5_delete_is_soft_and_final (env : Env) (db : DB) (req : Request) (n : Nat) (t : Todo)
    (hm : req.Method = "DELETE") (hp : req.Path = [.str "todos", .num n])
    (hdb : db.fault = none) (hwf : db.WF)
    (ht : t ∈ db.todos) (hid : t.ID = n) (hlive : t.DeletedAt = none) :
    (serve env db req).response
      = (some 200, [.message ("Todo with ID " ++ toString n ++ " deleted")]) ∧
    (serve env db req).db.todos
      = db.todos.map (fun r => if r.ID = n then { r with DeletedAt := some req.now } else r) ∧
    ({ t with DeletedAt := some req.now } : Todo) ∈ (serve env db req).db.todos ∧
    (serve env db req).db.todos.length = db.todos.length ∧
    (∀ req2 : Request, req2.Method = "GET" → req2.Path = [.str "todos", .num n] →
      (serve env (serve env db req).db req2).response
        = (some 404, [.error "Todo not found"])) ∧
    (∀ req2 : Request, req2.Method = "GET" → req2.Path = [.str "todos"] →
      ∃ ts, (serve env (serve env db req).db req2).response = (some 200, [.todos ts]) ∧
        ∀ r ∈ ts, r.ID ≠ n) ∧
    (∀ req2 : Request, req2.Method = "DELETE" → req2.Path = [.str "todos", .num n] →
      (serve env (serve env db req).db req2).response
        = (some 404, [.error "Todo not found"]) ∧
      (serve env (serve env db req).db req2).db = (serve env db req).db) ∧
    ((serve sampleEnv DB.empty reqCreateTodo).response
        = (some 200, [.todo ⟨1, 100, 100, none, "A", "B"⟩]) ∧
      (serve sampleEnv (serve sampleEnv DB.empty reqCreateTodo).db reqGetOne).response
        = (some 200, [.todo ⟨1, 100, 100, none, "A", "B"⟩]) ∧
      (serve sampleEnv (serve sampleEnv DB.empty reqCreateTodo).db reqPutPlain).response
        = (some 200, [.todo ⟨1, 100, 100, none, "C", "D"⟩]) ∧
      (serve sampleEnv (serve sampleEnv (serve sampleEnv DB.empty reqCreateTodo).db
          reqPutPlain).db reqDeleteOne).response
        = (some 200, [.message "Todo with ID 1 deleted"]) ∧
      (serve sampleEnv (serve sampleEnv (serve sampleEnv (serve sampleEnv DB.empty
          reqCreateTodo).db reqPutPlain).db reqDeleteOne).db reqGetOne).response
        = (some 404, [.error "Todo not found"])) := by
  obtain ⟨hresp, hstore⟩ := serve_delete_live env db req n t hm hp hdb hwf ht hid hlive
  have htodos : (serve env db req).db.todos
      = db.todos.map (fun r => if r.ID = n then { r with DeletedAt := some req.now } else r) := by
    rw [hstore]
  have hfault : (serve env db req).db.fault = none := by rw [hstore]; exact hdb
  have hn : n ≤ maxRowid := by rw [← hid]; exact hwf.2.2 t ht
  have habs : ∀ r ∈ (serve env db req).db.todos, r.ID = n → r.DeletedAt ≠ none := by
    intro r hr hrn
    rw [htodos] at hr
    obtain ⟨r0, _, hr0⟩ := List.mem_map.mp hr
    by_cases h : r0.ID = n
    · rw [if_pos h] at hr0; rw [← hr0]; simp
    · rw [if_neg h] at hr0; rw [hr0] at h; exact absurd hrn h
  refine ⟨hresp, htodos, ?_, ?_, ?_, ?_, ?_, ?_⟩
  · rw [htodos]
    exact List.mem_map.mpr ⟨t, ht, by simp [hid]⟩
  · rw [htodos, List.length_map]
  · intro req2 hm2 hp2
    exact (serve_todo_absent env _ req2 n (Or.inl hm2) hp2 hn habs).1
  · intro req2 hm2 hp2
    refine ⟨_, serve_list_todos env _ req2 hm2 hp2 hfault, ?_⟩
    intro r hr hrn
    obtain ⟨hmem, hl⟩ := List.mem_filter.mp hr
    have := habs r hmem hrn
    cases hd : r.DeletedAt <;> simp_all
  · intro req2 hm2 hp2
    have h := serve_todo_absent env _ req2 n (Or.inr (Or.inr hm2)) hp2 hn habs
    exact ⟨h.1, h.2.1⟩
  · decide

/-- C5 at a concrete input: `DELETE /todos/1` on the store holding the live
Todo `1`. -/
theorem C5_delete_is_soft_and_final_witness :
    reqDeleteOne.Method = "DELETE" ∧ reqDeleteOne.Path = [.str "todos", .num 1] ∧
    dbOneTodo.fault = none ∧ dbOneTodo.WF ∧
    (⟨1, 50, 50, none, "A", "B"⟩ : Todo) ∈ dbOneTodo.todos ∧
    (serve sampleEnv dbOneTodo reqDeleteOne).response
      = (some 200, [.message ("Todo with ID " ++ toString 1 ++ " deleted")]) ∧
    (serve sampleEnv dbOneTodo reqDeleteOne).db.todos.length = dbOneTodo.todos.length :=
  ⟨rfl, rfl, rfl, ⟨by decide, by decide, by decide⟩, by decide,
    (C5_delete_is_soft_and_final sampleEnv dbOneTodo reqDeleteOne 1 ⟨1, 50, 50, none, "A", "B"⟩
      rfl rfl rfl ⟨by decide, by decide, by decide⟩ (by decide) rfl rfl).1,
    (C5_delete_is_soft_and_final sampleEnv dbOneTodo reqDeleteOne 1 ⟨1, 50, 50, none, "A", "B"⟩
      rfl rfl rfl ⟨by decide, by decide, by decide⟩ (by decide) rfl rfl).2.2.2.1⟩

/-- C6 as stated fails: `POST /todos` with a body carrying `ID: 1`, on a
store that already holds Todo `1`.  The insert is refused by the store, the
handler ignores the error and answers 200 with a record whose id is `1`,
the id of the stored Todo; nothing was created. -/
theorem C6_supplied_id_is_reused :
    reqCreateWithID.todoBody.isErr = false ∧
    (serve sampleEnv dbOneTodo reqCreateWithID).response
      = (some 200, [.todo ⟨1, 100, 100, none, "X", "Y"⟩]) ∧
    (1 : Nat) ∈ dbOneTodo.todos.map Todo.ID ∧
    (serve sampleEnv dbOneTodo reqCreateWithID).db = dbOneTodo := by
  decide

/-- C6, amended: `POST /todos` with a body that binds, on a working store
that satisfies the primary-key constraint, is answered 200 with one record
carrying the body's title and description.  If the body's id is absent
(zero) or is not the id of a stored Todo, the record's id differs from the
id of every Todo that was in the store, soft-deleted ones included.  If the
body supplies the id of a stored Todo, the record carries that id and the
store is unchanged.  The record is stored when its id is not zero, is within
the rowid range and is not a stored id; when its id is zero (the store could
not assign a rowid) or is above the range, the store is unchanged.  Every
Todo that was in the store still is, and an id assigned by the store is
above the autoincrement counter. -/
theorem C6_created_id_is_fresh (env : Env) (db : DB) (req : Request) (b : Todo)
    (hm : req.Method = "POST") (hp : req.Path = [.str "todos"])
    (hb : req.todoBody = .ok b) (hdb : db.fault = none) (hwf : db.WF) :
    ∃ t : Todo,
      (serve env db req).response = (some 200, [.todo t]) ∧
      t.Title = b.Title ∧ t.Description = b.Description ∧
      ((b.ID = 0 ∨ ∀ r ∈ db.todos, r.ID ≠ b.ID) → ∀ r ∈ db.todos, r.ID ≠ t.ID) ∧
      ((∃ r ∈ db.todos, r.ID = b.ID) → t.ID = b.ID ∧ (serve env db req).db = db) ∧
      (t.ID ≠ 0 → t.ID ≤ maxRowid → (∀ r ∈ db.todos, r.ID ≠ t.ID) →
        t ∈ (serve env db req).db.todos) ∧
      ((t.ID = 0 ∨ maxRowid < t.ID) → (serve env db req).db = db) ∧
      (∀ r ∈ db.todos, r ∈ (serve env db req).db.todos) ∧
      (b.ID = 0 → t.ID ≠ 0 → db.todoSeq < t.ID) := by
  obtain ⟨hresp, hstore⟩ := serve_post_todos env db req b hm hp hb
  have hnz : ∀ r ∈ db.todos, r.ID ≠ 0 := hwf.2.1
  rcases CreateTodo_cases db req.now b hdb with
    ⟨h0, id, hid, hc⟩ | ⟨h0, e, hc⟩ | ⟨h0, hbad, e, hc⟩ | ⟨h0, hle, hfree, hc⟩
  · obtain ⟨hfresh, hne, hmax, hseq⟩ := nextID_spec _ _ _ hid
    have hfr : ∀ r ∈ db.todos, r.ID ≠ id := fun r hr heq =>
      hfresh (by rw [← heq]; exact List.mem_map_of_mem _ hr)
    rw [hc] at hresp hstore
    refine ⟨_, hresp, rfl, rfl, fun _ => hfr, ?_, ?_, ?_, ?_, fun _ _ => hseq⟩
    · rintro ⟨r, hr, heq⟩
      exact absurd (heq.trans h0) (hnz r hr)
    · intro _ _ _
      rw [hstore]
      exact (mem_insertTodo _ _ _).mpr (Or.inl rfl)
    · rintro (h | h)
      · exact absurd h hne
      · exact absurd hmax (Nat.not_le.mpr h)
    · intro r hr
      rw [hstore]
      exact (mem_insertTodo _ _ _).mpr (Or.inr hr)
  · rw [hc] at hresp hstore
    have hid0 : (stampCreate req.now b).ID = 0 := h0
    refine ⟨_, hresp, rfl, rfl, ?_, ?_, ?_, fun _ => hstore, ?_, ?_⟩
    · intro _ r hr
      rw [hid0]; exact hnz r hr
    · rintro ⟨r, hr, heq⟩
      exact absurd (heq.trans h0) (hnz r hr)
    · intro hne
      exact absurd hid0 hne
    · intro r hr
      rw [hstore]; exact hr
    · intro _ hne
      exact absurd hid0 hne
  · rw [hc] at hresp hstore
    have hidb : (stampCreate req.now b).ID = b.ID := rfl
    refine ⟨_, hresp, rfl, rfl, ?_, fun _ => ⟨hidb, hstore⟩, ?_, fun _ => hstore, ?_, ?_⟩
    · rintro (h | h)
      · exact absurd h h0
      · intro r hr
        rw [hidb]; exact h r hr
    · intro _ hle hfree
      rw [hidb] at hle hfree
      rcases hbad with h | ⟨r, hr, heq⟩
      · exact absurd hle (Nat.not_le.mpr h)
      · exact absurd heq (hfree r hr)
    · intro r hr
      rw [hstore]; exact hr
    · intro h
      exact absurd h h0
  · rw [hc] at hresp hstore
    have hidb : (stampCreate req.now b).ID = b.ID := rfl
    refine ⟨_, hresp, rfl, rfl, ?_, ?_, ?_, ?_, ?_, ?_⟩
    · intro _ r hr
      rw [hidb]; exact hfree r hr
    · rintro ⟨r, hr, heq⟩
      exact absurd heq (hfree r hr)
    · intro _ _ _
      rw [hstore]
      exact (mem_insertTodo _ _ _).mpr (Or.inl rfl)
    · rintro (h | h)
      · exact absurd (hidb ▸ h) h0
      · rw [hidb] at h
        exact absurd hle (Nat.not_le.mpr h)
    · intro r hr
      rw [hstore]
      exact (mem_insertTodo _ _ _).mpr (Or.inr hr)
    · intro h
      exact absurd h h0

/-- C6 amended, at a concrete input: a body without an id on the store that
holds Todo `1` is answered with a record whose id is not `1`. -/
theorem C6_created_id_is_fresh_witness :
    reqCreateTodo.Method = "POST" ∧ reqCreateTodo.Path = [.str "todos"] ∧
    reqCreateTodo.todoBody = .ok ⟨0, 0, 0, none, "A", "B"⟩ ∧ dbOneTodo.fault = none ∧
    dbOneTodo.WF ∧
    (∃ t : Todo,
      (serve sampleEnv dbOneTodo reqCreateTodo).response = (some 200, [.todo t]) ∧
      ∀ r ∈ dbOneTodo.todos, r.ID ≠ t.ID) :=
  ⟨rfl, rfl, rfl, rfl, ⟨by decide, by decide, by decide⟩,
    (C6_created_id_is_fresh sampleEnv dbOneTodo reqCreateTodo ⟨0, 0, 0, none, "A", "B"⟩
      rfl rfl rfl rfl ⟨by decide, by decide, by decide⟩).elim
      (fun t ht => ⟨t, ht.1, ht.2.2.2.1 (Or.inl rfl)⟩)⟩

/-- C7: in every store state, `GET /search` with `q` missing or empty is
answered 400 with `{"error": "Search parameter 'q' is required!"}` and
nothing else in the body; no statement is sent to the store and the store
is unchanged. -/
theorem C7_search_requires_q (env : Env) (db : DB) (req : Request)
    (hm : req.Method = "GET") (hp : req.Path = [.str "search"])
    (hq : (∀ kv ∈ req.Query, kv.1 ≠ "q") ∨
      req.Query.find? (fun kv => kv.1 == "q") = some ("q", "")) :
    (serve env db req).response
      = (some 400, [.error "Search parameter 'q' is required!"]) ∧
    (∀ stmt, Event.sql stmt ∉ (serve env db req).trace) ∧
    (serve env db req).db = db := by
  have hq2 : req.DefaultQuery "q" "" = "" := by
    rcases hq with hq | hq
    · exact DefaultQuery_absent req _ _ hq
    · unfold Request.DefaultQuery; rw [hq]
  rw [serve_chain3 env db req _ _ _ .getSearch rfl (route_search req hm hp)]
  simp [HandlerFunc.call, getSearch, Context.note, stage, hq2, Context.Render,
    Context.response, ResponseWriter.WriteHeader, ResponseWriter.Write,
    ResponseWriter.WriteHeaderNow, ResponseWriter.reset]

/-- C7 at a concrete input: `GET /search` with no query string, on a store
that holds a Todo. -/
theorem C7_search_requires_q_witness :
    reqSearchNoQ.Method = "GET" ∧ reqSearchNoQ.Path = [.str "search"] ∧
    (∀ kv ∈ reqSearchNoQ.Query, kv.1 ≠ "q") ∧
    (serve sampleEnv dbOneTodo reqSearchNoQ).response
      = (some 400, [.error "Search parameter 'q' is required!"]) :=
  ⟨rfl, rfl, by decide,
    (C7_search_requires_q sampleEnv dbOneTodo reqSearchNoQ rfl rfl (Or.inl (by decide))).1⟩

/-- C8 as stated fails in its last part: `GET /search?q=_` on the store
with the users `Ann` and `Bob` is answered 200 with both users, although
neither name contains `_`; `q` goes into the `LIKE` pattern as it is, and
`_` there matches any one character. -/
theorem C8_underscore_matches_every_name :
    reqSearchUnderscore.DefaultQuery "q" "" = "_" ∧
    (serve sampleEnv dbTwoUsers reqSearchUnderscore).response
      = (some 200, [.users [⟨1, "Ann", "ann@example.com"⟩, ⟨2, "Bob", "bob@example.com"⟩]]) ∧
    containsFold "_".data "Ann".data = false ∧
    containsFold "_".data "Bob".data = false := by
  decide

/-- C8, amended: `GET /search` with a non-empty `q` on a working store.
When the pattern `%q%` matches no user name under SQLite's `LIKE`, the
handler writes 404 with `{"error": "Not found"}` and goes on to write the
empty list; the status line sent is 404, the later write with 200 does not
replace it.  When it matches some user, the response is 200 with exactly
the users whose name matches, in table order.  A `%` or `_` inside `q` acts
as a wildcard; for a `q` without them, a name matches exactly when it
contains `q`, ASCII letters compared regardless of case.  The store is
unchanged either way. -/
theorem C8_search_results (env : Env) (db : DB) (req : Request)
    (hm : req.Method = "GET") (hp : req.Path = [.str "search"])
    (hq : req.DefaultQuery "q" "" ≠ "") (hdb : db.fault = none) :
    ((∀ u ∈ db.users,
        likeMatch ("%" ++ req.DefaultQuery "q" "" ++ "%").data u.Name.data = false) →
      (serve env db req).response = (some 404, [.error "Not found", .users []])) ∧
    ((∃ u ∈ db.users,
        likeMatch ("%" ++ req.DefaultQuery "q" "" ++ "%").data u.Name.data = true) →
      (serve env db req).response
        = (some 200, [.users (db.users.filter
            (fun u => likeMatch ("%" ++ req.DefaultQuery "q" "" ++ "%").data u.Name.data))])) ∧
    (('%' ∉ (req.DefaultQuery "q" "").data ∧ '_' ∉ (req.DefaultQuery "q" "").data) →
      ∀ name : String,
        likeMatch ("%" ++ req.DefaultQuery "q" "" ++ "%").data name.data
          = containsFold (req.DefaultQuery "q" "").data name.data) ∧
    (serve env db req).db = db := by
  rw [serve_chain3 env db req _ _ _ .getSearch rfl (route_search req hm hp)]
  refine ⟨?_, ?_, ?_, ?_⟩
  · intro hnone
    have hf : db.users.filter
        (fun u => likeMatch ("%" ++ req.DefaultQuery "q" "" ++ "%").data u.Name.data) = [] := by
      rw [List.filter_eq_nil_iff]
      intro u hu
      rw [hnone u hu]
      exact Bool.false_ne_true
    simp only [HandlerFunc.call, getSearch, Context.note, stage, hq, if_false, DB.FindUsersLike,
      readErr_none db hdb, hf]
    simp [sliceLen, Payload.ofUsers, Context.Render, Context.response,
      ResponseWriter.WriteHeader, ResponseWriter.Write,
      ResponseWriter.WriteHeaderNow, ResponseWriter.reset]
  · intro hsome
    have hf : db.users.filter
        (fun u => likeMatch ("%" ++ req.DefaultQuery "q" "" ++ "%").data u.Name.data) ≠ [] := by
      obtain ⟨u, hu, hl⟩ := hsome
      intro hnil
      have : u ∈ db.users.filter
          (fun u => likeMatch ("%" ++ req.DefaultQuery "q" "" ++ "%").data u.Name.data) :=
        List.mem_filter.mpr ⟨hu, hl⟩
      rw [hnil] at this
      exact absurd this (List.not_mem_nil u)
    simp only [HandlerFunc.call, getSearch, Context.note, stage, hq, if_false, DB.FindUsersLike,
      readErr_none db hdb]
    generalize db.users.filter
      (fun u => likeMatch ("%" ++ req.DefaultQuery "q" "" ++ "%").data u.Name.data) = found
      at hf ⊢
    have hlen : sliceLen (some found) ≠ 0 := by
      cases found with
      | nil => exact absurd rfl hf
      | cons a as => simp [sliceLen]
    simp [hlen, Payload.ofUsers, Context.Render, Context.response,
      ResponseWriter.WriteHeader, ResponseWriter.Write,
      ResponseWriter.WriteHeaderNow, ResponseWriter.reset]
  · intro hw name
    exact likeMatch_contains _ hw.1 hw.2 name
  · simp only [HandlerFunc.call, getSearch, Context.note, stage, hq, if_false, DB.FindUsersLike,
      readErr_none db hdb]
    split <;> rfl

/-- C8 amended, at concrete inputs: `GET /search?q=zz` on the empty store is
answered with status 404 and two body writes; `GET /search?q=nn` on the
store with `Ann` and `Bob` is answered 200 with `Ann`. -/
theorem C8_search_results_witness :
    reqSearchZZ.Method = "GET" ∧ reqSearchZZ.Path = [.str "search"] ∧
    reqSearchZZ.DefaultQuery "q" "" ≠ "" ∧ DB.empty.fault = none ∧
    (serve sampleEnv DB.empty reqSearchZZ).response
      = (some 404, [.error "Not found", .users []]) ∧
    reqSearchNN.DefaultQuery "q" "" ≠ "" ∧
    (serve sampleEnv dbTwoUsers reqSearchNN).response
      = (some 200, [.users [⟨1, "Ann", "ann@example.com"⟩]]) :=
  ⟨rfl, rfl, by decide, rfl,
    (C8_search_results sampleEnv DB.empty reqSearchZZ rfl rfl (by decide) rfl).1
      (by intro u hu; cases hu),
    by decide,
    (C8_search_results sampleEnv dbTwoUsers reqSearchNN rfl rfl (by decide) rfl).2.1
      ⟨⟨1, "Ann", "ann@example.com"⟩, by decide, by decide⟩⟩

/-- C9 as stated fails: `GET /search` is registered before
`router.Use(LoggerMiddleware())`, so its chain is `Logger(), Recovery()`
and the handler; `LoggerMiddleware` is not in it, is never entered and
prints no line for the request. -/
theorem C9_search_is_not_wrapped :
    chainOf "GET" [.lit "search"] = some [.ginLogger, .ginRecovery, .getSearch] ∧
    HandlerFunc.LoggerMiddleware ∉ [HandlerFunc.ginLogger, .ginRecovery, .getSearch] ∧
    (serve sampleEnv DB.empty reqSearchZZ).log = [] ∧
    Event.enter .LoggerMiddleware ∉ (serve sampleEnv DB.empty reqSearchZZ).trace := by
  decide

/-- C9, amended: `LoggerMiddleware` is in the chain of exactly the routes
registered after `router.Use(LoggerMiddleware())`, which are `/`,
`/public/info`, `/private/data` and `/private/create`; there it stands
right after gin's own `Logger()` and `Recovery()`, ahead of the group's
`AuthMiddleware` and of the handler.  For every request dispatched to one
of these routes its post-step prints one line with the method and the
final status, also when `AuthMiddleware` aborts (the line then carries
401); for a request dispatched to any other route it prints nothing. -/
theorem C9_logger_wraps_routes_registered_after_use (env : Env) (db : DB) (req : Request) :
    (∀ r ∈ main.trees, HandlerFunc.LoggerMiddleware ∈ r.handlers ↔
      (r.Path = [] ∨ r.Path = [.lit "public", .lit "info"] ∨
        r.Path = [.lit "private", .lit "data"] ∨ r.Path = [.lit "private", .lit "create"])) ∧
    chainOf "GET" [] = some [.ginLogger, .ginRecovery, .LoggerMiddleware, .getRoot] ∧
    chainOf "GET" [.lit "public", .lit "info"]
      = some [.ginLogger, .ginRecovery, .LoggerMiddleware, .publicInfo] ∧
    chainOf "GET" [.lit "private", .lit "data"]
      = some [.ginLogger, .ginRecovery, .LoggerMiddleware, .AuthMiddleware, .privateData] ∧
    chainOf "POST" [.lit "private", .lit "create"]
      = some [.ginLogger, .ginRecovery, .LoggerMiddleware, .AuthMiddleware, .privateCreate] ∧
    (∀ r id, findRoute main.trees req.Method req.Path = some (r, id) →
      (HandlerFunc.LoggerMiddleware ∈ r.handlers →
        (serve env db req).log = [⟨req.Method, (serve env db req).Writer.status⟩]) ∧
      (HandlerFunc.LoggerMiddleware ∉ r.handlers → (serve env db req).log = []) ∧
      (HandlerFunc.AuthMiddleware ∈ r.handlers → req.GetHeader "X-API-Key" ≠ "gintama" →
        (serve env db req).log = [⟨req.Method, 401⟩])) := by
  refine ⟨by decide, by decide, by decide, by decide, by decide, ?_⟩
  intro r id hf
  exact serve_log env db req r id hf

/-- C9 amended, at a concrete input: `GET /private/data` without the key is
aborted with 401 and `LoggerMiddleware` prints the line `GET 401`. -/
theorem C9_logger_wraps_routes_registered_after_use_witness :
    findRoute main.trees reqPrivateNoKey.Method reqPrivateNoKey.Path
      = some (⟨"GET", [.lit "private", .lit "data"],
          [.ginLogger, .ginRecovery, .LoggerMiddleware, .AuthMiddleware, .privateData]⟩, none) ∧
    reqPrivateNoKey.GetHeader "X-API-Key" ≠ "gintama" ∧
    (serve sampleEnv DB.empty reqPrivateNoKey).log = [⟨"GET", 401⟩] :=
  ⟨by decide, by decide,
    ((C9_logger_wraps_routes_registered_after_use sampleEnv DB.empty reqPrivateNoKey).2.2.2.2.2
      ⟨"GET", [.lit "private", .lit "data"],
        [.ginLogger, .ginRecovery, .LoggerMiddleware, .AuthMiddleware, .privateData]⟩ none
      (by decide)).2.2 (by decide) (by decide)⟩

/-- C10 as stated fails: `POST /users` on a store whose connection is
broken.  `db.Create` returns an error, the handler does not look at it and
answers 200 with the user as a success body. -/
theorem C10_create_failure_answered_200 :
    (dbBroken.CreateUser ⟨0, "Ann", "ann@example.com"⟩).2.2 = some "disk I/O error" ∧
    (serve sampleEnv dbBroken reqCreateAnn).response
      = (some 200, [.user ⟨0, "Ann", "ann@example.com"⟩]) ∧
    (serve sampleEnv dbBroken reqCreateAnn).response.1 ≠ some 500 := by
  decide

/-- C10, amended.  When every store operation fails (`outage`):
`GET /search` with a non-empty `q` is answered 500 with the JSON error
object `{"error": "No users matching the search query"}`; `GET`, `PUT` and
`DELETE /todos/:id` are answered 404 with `{"error": "Todo not found"}`;
`POST /users` and `POST /todos` are answered 200 with the bound record;
`GET /users` and `GET /todos` are answered 200 with the body `null`.
When the lookup works and the write fails (`readOnly`), for `t` the live
Todo with id `n`: `PUT /todos/n` is answered 200 with `t` carrying the
body's title and description, `DELETE /todos/n` is answered 200 with the
message `Todo with ID n deleted`, `POST /users` and `POST /todos` are
answered 200 with the bound record.  The store is unchanged in every
case. -/
theorem C10_store_failure_responses (env : Env) (db : DB) (req : Request) (e : String) :
    (db.fault = some (.outage e) →
      (req.Method = "GET" → req.Path = [.str "search"] → req.DefaultQuery "q" "" ≠ "" →
        (serve env db req).response
          = (some 500, [.error "No users matching the search query"])) ∧
      (∀ n, (req.Method = "GET" ∨ req.Method = "PUT" ∨ req.Method = "DELETE") →
        req.Path = [.str "todos", .num n] →
        (serve env db req).response = (some 404, [.error "Todo not found"])) ∧
      (∀ u, req.Method = "POST" → req.Path = [.str "users"] → req.userBody = .ok u →
        (serve env db req).response = (some 200, [.user u])) ∧
      (req.Method = "GET" → req.Path = [.str "users"] →
        (serve env db req).response = (some 200, [.null])) ∧
      (∀ t, req.Method = "POST" → req.Path = [.str "todos"] → req.todoBody = .ok t →
        (serve env db req).response = (some 200, [.todo (stampCreate req.now t)])) ∧
      (req.Method = "GET" → req.Path = [.str "todos"] →
        (serve env db req).response = (some 200, [.null])) ∧
      (serve env db req).db = db) ∧
    (db.fault = some (.readOnly e) →
      (∀ n t b, req.Method = "PUT" → req.Path = [.str "todos", .num n] →
        req.todoBody = .ok b → db.WF → t ∈ db.todos → t.ID = n → t.DeletedAt = none →
        (serve env db req).response
          = (some 200, [.todo ⟨t.ID, t.CreatedAt, req.now, t.DeletedAt, b.Title,
              b.Description⟩]) ∧
        (serve env db req).db = db) ∧
      (∀ n t, req.Method = "DELETE" → req.Path = [.str "todos", .num n] →
        db.WF → t ∈ db.todos → t.ID = n → t.DeletedAt = none →
        (serve env db req).response
          = (some 200, [.message ("Todo with ID " ++ toString n ++ " deleted")]) ∧
        (serve env db req).db = db) ∧
      (∀ u, req.Method = "POST" → req.Path = [.str "users"] → req.userBody = .ok u →
        (serve env db req).response = (some 200, [.user u]) ∧ (serve env db req).db = db) ∧
      (∀ t, req.Method = "POST" → req.Path = [.str "todos"] → req.todoBody = .ok t →
        (serve env db req).response = (some 200, [.todo (stampCreate req.now t)]) ∧
        (serve env db req).db = db)) := by
  constructor
  · intro hdb
    have hr : db.readErr = some e := by simp [DB.readErr, hdb]
    have hw : db.writeErr = some e := by simp [DB.writeErr, hdb]
    refine ⟨?_, ?_, ?_, ?_, ?_, ?_, ?_⟩
    · intro hm hp hq
      rw [serve_chain3 env db req _ _ _ .getSearch rfl (route_search req hm hp)]
      simp [HandlerFunc.call, getSearch, Context.note, stage, hq, Context.Render,
        DB.FindUsersLike, hr, Context.response, ResponseWriter.WriteHeader,
        ResponseWriter.Write, ResponseWriter.WriteHeaderNow, ResponseWriter.reset]
    · intro n hm hp
      have he : db.FirstTodo env (.num n) = .error e := by simp [DB.FirstTodo, hr]
      rcases hm with hm | hm | hm
      · rw [serve_chain3 env db req _ _ _ .getTodoByID rfl (route_getTodo req n hm hp)]
        simp [HandlerFunc.call, getTodoByID, Context.note, Context.Param, stage, he,
          Context.Render, Context.response, ResponseWriter.WriteHeader, ResponseWriter.Write,
          ResponseWriter.WriteHeaderNow, ResponseWriter.reset]
      · rw [serve_chain3 env db req _ _ _ .putTodoByID rfl (route_putTodo req n hm hp)]
        simp [HandlerFunc.call, putTodoByID, Context.note, Context.Param, stage, he,
          Context.Render, Context.response, ResponseWriter.WriteHeader, ResponseWriter.Write,
          ResponseWriter.WriteHeaderNow, ResponseWriter.reset]
      · rw [serve_chain3 env db req _ _ _ .deleteTodoByID rfl (route_deleteTodo req n hm hp)]
        simp [HandlerFunc.call, deleteTodoByID, Context.note, Context.Param, stage, he,
          Context.Render, Context.response, ResponseWriter.WriteHeader, ResponseWriter.Write,
          ResponseWriter.WriteHeaderNow, ResponseWriter.reset]
    · intro u hm hp hb
      rw [serve_chain3 env db req _ _ _ .postUsers rfl (route_postUsers req hm hp)]
      simp [HandlerFunc.call, postUsers, Context.note, stage, hb, Bind.isErr, Bind.dest,
        DB.CreateUser, hw, Context.Render, Context.response, ResponseWriter.WriteHeader,
        ResponseWriter.Write, ResponseWriter.WriteHeaderNow, ResponseWriter.reset]
    · intro hm hp
      rw [serve_chain3 env db req _ _ _ .getUsers rfl (route_getUsers req hm hp)]
      simp [HandlerFunc.call, getUsers, Context.note, stage, DB.FindUsers, hr, Payload.ofUsers,
        Context.Render, Context.response, ResponseWriter.WriteHeader, ResponseWriter.Write,
        ResponseWriter.WriteHeaderNow, ResponseWriter.reset]
    · intro t hm hp hb
      rw [serve_chain3 env db req _ _ _ .postTodos rfl (route_postTodos req hm hp)]
      simp [HandlerFunc.call, postTodos, Context.note, stage, hb, Bind.isErr, Bind.dest,
        DB.CreateTodo, hw, Context.Render, Context.response, ResponseWriter.WriteHeader,
        ResponseWriter.Write, ResponseWriter.WriteHeaderNow, ResponseWriter.reset]
    · intro hm hp
      rw [serve_chain3 env db req _ _ _ .getTodos rfl (route_getTodos req hm hp)]
      simp [HandlerFunc.call, getTodos, Context.note, stage, DB.FindTodos, hr, Payload.ofTodos,
        Context.Render, Context.response, ResponseWriter.WriteHeader, ResponseWriter.Write,
        ResponseWriter.WriteHeaderNow, ResponseWriter.reset]
    · exact serve_writeErr env db req e hw
  · intro hdb
    have hr : db.readErr = none := by simp [DB.readErr, hdb]
    have hw : db.writeErr = some e := by simp [DB.writeErr, hdb]
    refine ⟨?_, ?_, ?_, ?_⟩
    · intro n t b hm hp hb hwf ht hid hlive
      have he := FirstTodo_live_read env db t n hr hwf ht hid hlive
      have h0 : t.ID ≠ 0 := hwf.2.1 t ht
      rw [serve_chain3 env db req _ _ _ .putTodoByID rfl (route_putTodo req n hm hp)]
      constructor
      · simp [HandlerFunc.call, putTodoByID, Context.note, Context.Param, stage, he, hb,
          Bind.isErr, Bind.dest, DB.SaveTodo, h0, hw, Context.Render, Context.response,
          ResponseWriter.WriteHeader, ResponseWriter.Write, ResponseWriter.WriteHeaderNow,
          ResponseWriter.reset]
      · simp [HandlerFunc.call, putTodoByID, Context.note, Context.Param, stage, he, hb,
          Bind.isErr, Bind.dest, DB.SaveTodo, h0, hw, Context.Render]
    · intro n t hm hp hwf ht hid hlive
      have he := FirstTodo_live_read env db t n hr hwf ht hid hlive
      rw [serve_chain3 env db req _ _ _ .deleteTodoByID rfl (route_deleteTodo req n hm hp)]
      constructor
      · simp [HandlerFunc.call, deleteTodoByID, Context.note, Context.Param, stage, he,
          Seg.text, DB.DeleteTodo, hw, Context.Render, Context.response,
          ResponseWriter.WriteHeader, ResponseWriter.Write, ResponseWriter.WriteHeaderNow,
          ResponseWriter.reset]
      · simp [HandlerFunc.call, deleteTodoByID, Context.note, Context.Param, stage, he,
          DB.DeleteTodo, hw, Context.Render]
    · intro u hm hp hb
      rw [serve_chain3 env db req _ _ _ .postUsers rfl (route_postUsers req hm hp)]
      constructor
      · simp [HandlerFunc.call, postUsers, Context.note, stage, hb, Bind.isErr, Bind.dest,
          DB.CreateUser, hw, Context.Render, Context.response, ResponseWriter.WriteHeader,
          ResponseWriter.Write, ResponseWriter.WriteHeaderNow, ResponseWriter.reset]
      · simp [HandlerFunc.call, postUsers, Context.note, stage, hb, Bind.isErr, Bind.dest,
          DB.CreateUser, hw, Context.Render]
    · intro t hm hp hb
      rw [serve_chain3 env db req _ _ _ .postTodos rfl (route_postTodos req hm hp)]
      constructor
      · simp [HandlerFunc.call, postTodos, Context.note, stage, hb, Bind.isErr, Bind.dest,
          DB.CreateTodo, hw, Context.Render, Context.response, ResponseWriter.WriteHeader,
          ResponseWriter.Write, ResponseWriter.WriteHeaderNow, ResponseWriter.reset]
      · simp [HandlerFunc.call, postTodos, Context.note, stage, hb, Bind.isErr, Bind.dest,
          DB.CreateTodo, hw, Context.Render]

/-- C10 amended, at concrete inputs: `GET /search?q=zz` on the broken store
is answered 500; `PUT /todos/1` on the read-only store is answered 200 and
the stored Todo keeps its title. -/
theorem C10_store_failure_responses_witness :
    dbBroken.fault = some (.outage "disk I/O error") ∧
    (serve sampleEnv dbBroken reqSearchZZ).response
      = (some 500, [.error "No users matching the search query"]) ∧
    dbReadOnly.fault = some (.readOnly "attempt to write a readonly database") ∧
    (serve sampleEnv dbReadOnly reqPutPlain).response
      = (some 200, [.todo ⟨1, 50, 100, none, "C", "D"⟩]) ∧
    (serve sampleEnv dbReadOnly reqPutPlain).db = dbReadOnly :=
  ⟨rfl,
    ((C10_store_failure_responses sampleEnv dbBroken reqSearchZZ "disk I/O error").1 rfl).1
      rfl rfl (by decide),
    rfl,
    (((C10_store_failure_responses sampleEnv dbReadOnly reqPutPlain
      "attempt to write a readonly database").2 rfl).1 1 ⟨1, 50, 50, none, "A", "B"⟩
      ⟨0, 0, 0, none, "C", "D"⟩ rfl rfl rfl ⟨by decide, by decide, by decide⟩ (by decide)
      rfl rfl).1,
    (((C10_store_failure_responses sampleEnv dbReadOnly reqPutPlain
      "attempt to write a readonly database").2 rfl).1 1 ⟨1, 50, 50, none, "A", "B"⟩
      ⟨0, 0, 0, none, "C", "D"⟩ rfl rfl rfl ⟨by decide, by decide, by decide⟩ (by decide)
      rfl rfl).2⟩

end TodoServer
